import Mathlib

/-!
Verification development for the "my year with git" annual statistics tool
(`src/git_parser.py`, `src/statistics.py`, `src/main.py`).

Python strings are embedded as `List Char` (`PyStr`); the embedding is
faithful on the ASCII + CJK text that the tool processes.  External `git`
subprocess invocations are embedded as explicit `(success, stdout)` inputs.
The `date.today()` clock read in `calculate_streak` is embedded as an
explicit `today` parameter.
-/

/-- Python strings, embedded as lists of characters. -/
abbrev PyStr := List Char

/-- Shorthand turning a Lean string literal into the `PyStr` embedding. -/
def pys (s : String) : PyStr := s.data

/-- The NUL character used by the log format as a field delimiter. -/
def nulChar : Char := Char.ofNat 0

/-- Characters treated as whitespace by Python `str.strip` / `str.split()`
(ASCII scope: space, tab, newline, carriage return, vertical tab, form feed). -/
def pyIsSpace (c : Char) : Bool :=
  c = ' ' || c = '\t' || c = '\n' || c = '\x0d' || c = Char.ofNat 11 || c = Char.ofNat 12

/-- Left part of Python `str.strip`: drop leading whitespace. -/
def pyStripLeft (s : PyStr) : PyStr := s.dropWhile pyIsSpace

/-- Right part of Python `str.strip`: drop trailing whitespace. -/
def pyStripRight (s : PyStr) : PyStr := (s.reverse.dropWhile pyIsSpace).reverse

/-- Python `str.strip()` with no arguments: remove leading and trailing whitespace. -/
def pyStrip (s : PyStr) : PyStr := pyStripRight (pyStripLeft s)

/-- Python `str.lower()` (ASCII scope). -/
def pyLower (s : PyStr) : PyStr := s.map Char.toLower

/-- Helper for `pySplitChar`: accumulate the current piece (in reverse). -/
def pySplitCharGo (sep : Char) : List Char → List Char → List PyStr
  | [], acc => [acc.reverse]
  | c :: cs, acc =>
    if c = sep then acc.reverse :: pySplitCharGo sep cs []
    else pySplitCharGo sep cs (c :: acc)

/-- Python `str.split(sep)` for a one-character separator (no maxsplit). -/
def pySplitChar (sep : Char) (s : PyStr) : List PyStr := pySplitCharGo sep s []

/-- Helper for `pySplitAtMost`: `n` counts the remaining allowed splits. -/
def pySplitAtMostGo (sep : Char) : Nat → List Char → List Char → List PyStr
  | _, [], acc => [acc.reverse]
  | 0, cs, acc => [acc.reverse ++ cs]
  | n + 1, c :: cs, acc =>
    if c = sep then acc.reverse :: pySplitAtMostGo sep n cs []
    else pySplitAtMostGo sep (n + 1) cs (c :: acc)

/-- Python `str.split(sep, maxsplit)` for a one-character separator. -/
def pySplitAtMost (sep : Char) (maxsplit : Nat) (s : PyStr) : List PyStr :=
  pySplitAtMostGo sep maxsplit s []

/-- Helper for `pySplitDoubleNul`. -/
def pySplitDoubleNulGo : List Char → List Char → List PyStr
  | [], acc => [acc.reverse]
  | [c], acc => [(c :: acc).reverse]
  | c1 :: c2 :: cs, acc =>
    if c1 = nulChar ∧ c2 = nulChar then acc.reverse :: pySplitDoubleNulGo cs []
    else pySplitDoubleNulGo (c2 :: cs) (c1 :: acc)

/-- Python `str.split("\x00\x00")`: split on the two-NUL record separator
(leftmost, non-overlapping). -/
def pySplitDoubleNul (s : PyStr) : List PyStr := pySplitDoubleNulGo s []

/-- Python `str.split()` with no arguments: split on whitespace runs,
discarding empty pieces.  Helper carrying the current word (reversed). -/
def pySplitWsGo : List Char → List Char → List PyStr
  | [], [] => []
  | [], acc => [acc.reverse]
  | c :: cs, acc =>
    if pyIsSpace c then
      match acc with
      | [] => pySplitWsGo cs []
      | _ => acc.reverse :: pySplitWsGo cs []
    else pySplitWsGo cs (c :: acc)

/-- Python `str.split()` with no arguments. -/
def pySplitWs (s : PyStr) : List PyStr := pySplitWsGo s []

/-- Python `str.replace("Z", "+00:00")`: replace every occurrence of the
one-character pattern. -/
def pyReplaceZ (s : PyStr) : PyStr :=
  s.foldr (fun c acc => if c = 'Z' then pys "+00:00" ++ acc else c :: acc) []

/-- Digit-run validity for Python `int(str)` after the sign: nonempty digits
with single underscores allowed only between digits. -/
def pyIntRestOk : List Char → Bool
  | [] => true
  | '_' :: rest =>
    match rest with
    | [] => false
    | c :: rest2 => c.isDigit && pyIntRestOk rest2
  | c :: rest => c.isDigit && pyIntRestOk rest

/-- Digit-run validity for Python `int(str)`: at least one digit, underscores
only between digits. -/
def pyIntDigitsOk : List Char → Bool
  | [] => false
  | c :: rest => c.isDigit && pyIntRestOk rest

/-- Numeric value of a digit run (underscores skipped). -/
def pyIntVal (s : List Char) : Nat :=
  (s.filter (fun c => c ≠ '_')).foldl (fun n c => n * 10 + (c.toNat - 48)) 0

/-- Python `int(str)` (ASCII decimal scope): strips surrounding whitespace,
accepts an optional sign, digits with underscore separators; returns `none`
where Python raises `ValueError`. -/
def pyInt (s : PyStr) : Option Int :=
  let t := pyStrip s
  match t with
  | '+' :: rest => if pyIntDigitsOk rest then some (pyIntVal rest) else none
  | '-' :: rest => if pyIntDigitsOk rest then some (-(pyIntVal rest : Int)) else none
  | rest => if pyIntDigitsOk rest then some (pyIntVal rest) else none

/-- Decimal digits of a natural number as characters (for `str(n)`). -/
def natToStr (n : Nat) : PyStr := (toString n).data

/-- Zero-pad a decimal rendering to width 2 (`strftime` `%m`, `%d`, `%H`, `%M`). -/
def pad2 (n : Nat) : PyStr :=
  if n < 10 then '0' :: natToStr n else natToStr n

/-- Zero-pad a decimal rendering to width 4 (`strftime` `%Y`). -/
def pad4 (n : Nat) : PyStr :=
  if n < 10 then pys "000" ++ natToStr n
  else if n < 100 then pys "00" ++ natToStr n
  else if n < 1000 then '0' :: natToStr n
  else natToStr n

/-- Helper for `commaGroup`: walks the reversed digit list, emitting a comma
once three digits have been emitted since the last one. -/
def commaGroupGo : List Char → Nat → List Char
  | [], _ => []
  | c :: cs, k =>
    if k = 3 then ',' :: c :: commaGroupGo cs 1
    else c :: commaGroupGo cs (k + 1)

/-- Python `f"{n:,}"` for naturals: decimal digits grouped in threes by commas. -/
def commaGroup (s : PyStr) : PyStr :=
  (commaGroupGo s.reverse 0).reverse

/-- Python `f"{i:,}"` for integers. -/
def intToCommaStr (i : Int) : PyStr :=
  if i < 0 then '-' :: commaGroup (natToStr i.natAbs)
  else commaGroup (natToStr i.natAbs)

section Dates

/-- A Python `datetime.date`. -/
structure PyDate where
  year : Nat
  month : Nat
  day : Nat
deriving DecidableEq, Repr

/-- A Python timezone-aware `datetime.datetime` as produced by
`datetime.fromisoformat`; `tzMin` is the UTC offset in minutes
(`none` for a naive datetime). -/
structure PyDateTime where
  year : Nat
  month : Nat
  day : Nat
  hour : Nat
  minute : Nat
  second : Nat
  tzMin : Option Int
deriving DecidableEq, Repr

/-- Gregorian leap-year rule. -/
def isLeap (y : Nat) : Bool :=
  y % 4 = 0 && (y % 100 ≠ 0 || y % 400 = 0)

/-- Number of days in a month of a given year. -/
def daysInMonth (y m : Nat) : Nat :=
  if m = 2 then (if isLeap y then 29 else 28)
  else if m = 4 ∨ m = 6 ∨ m = 9 ∨ m = 11 then 30
  else 31

/-- Cumulative days before the start of month `m` in a non-leap year. -/
def daysBeforeMonth (m : Nat) : Nat :=
  [0, 0, 31, 59, 90, 120, 151, 181, 212, 243, 273, 304, 334].getD m 0

/-- Day of the year (`timetuple().tm_yday`): 1 for January 1st. -/
def dayOfYear (y m d : Nat) : Nat :=
  daysBeforeMonth m + (if 2 < m ∧ isLeap y then 1 else 0) + d

/-- Proleptic-Gregorian ordinal (`date.toordinal()`): 0001-01-01 is day 1. -/
def dateOrdinal (y m d : Nat) : Nat :=
  (y - 1) * 365 + (y - 1) / 4 - (y - 1) / 100 + (y - 1) / 400 + dayOfYear y m d

/-- `date.weekday()`: 0 = Monday .. 6 = Sunday. -/
def weekdayOf (y m d : Nat) : Nat :=
  (dateOrdinal y m d - 1) % 7

/-- The calendar date of a datetime (its local fields). -/
def PyDateTime.toDate (dt : PyDateTime) : PyDate :=
  ⟨dt.year, dt.month, dt.day⟩

/-- `strftime("%Y-%m-%d")` on a date. -/
def fmtYmdD (d : PyDate) : PyStr :=
  pad4 d.year ++ pys "-" ++ pad2 d.month ++ pys "-" ++ pad2 d.day

/-- `strftime("%Y-%m-%d")` on a datetime. -/
def fmtYmd (dt : PyDateTime) : PyStr := fmtYmdD dt.toDate

/-- `strftime("%Y-%m-%d %H:%M")` on a datetime. -/
def fmtYmdHM (dt : PyDateTime) : PyStr :=
  fmtYmd dt ++ pys " " ++ pad2 dt.hour ++ pys ":" ++ pad2 dt.minute

/-- The previous calendar day (`d - timedelta(days=1)`; years stop at 0). -/
def prevDate (d : PyDate) : PyDate :=
  if d.day > 1 then ⟨d.year, d.month, d.day - 1⟩
  else if d.month > 1 then ⟨d.year, d.month - 1, daysInMonth d.year (d.month - 1)⟩
  else ⟨d.year - 1, 12, 31⟩

/-- Sort key for comparing aware datetimes: seconds since the proleptic epoch
in UTC (Python compares aware datetimes by instant; a missing offset is
treated as UTC). -/
def dtInstant (dt : PyDateTime) : Int :=
  (dateOrdinal dt.year dt.month dt.day : Int) * 86400
    + (dt.hour : Int) * 3600 + (dt.minute : Int) * 60 + (dt.second : Int)
    - (dt.tzMin.getD 0) * 60

/-- Value of a single decimal digit, `none` for non-digits. -/
def digitVal (c : Char) : Option Nat :=
  if c.isDigit then some (c.toNat - 48) else none

/-- Parse two decimal digit characters. -/
def parse2 (a b : Char) : Option Nat := do
  let x ← digitVal a
  let y ← digitVal b
  pure (x * 10 + y)

/-- Parse four decimal digit characters. -/
def parse4 (a b c d : Char) : Option Nat := do
  let x ← parse2 a b
  let y ← parse2 c d
  pure (x * 100 + y)

/-- Parse the UTC-offset tail of an ISO-8601 timestamp (`+HH:MM` / `-HH:MM`),
or an absent offset (naive datetime). -/
def parseIsoOffset : List Char → Option (Option Int)
  | [] => some none
  | '+' :: h1 :: h2 :: ':' :: m1 :: m2 :: [] => do
    let h ← parse2 h1 h2
    let m ← parse2 m1 m2
    if h < 24 ∧ m < 60 then pure (some ((h : Int) * 60 + m)) else none
  | '-' :: h1 :: h2 :: ':' :: m1 :: m2 :: [] => do
    let h ← parse2 h1 h2
    let m ← parse2 m1 m2
    if h < 24 ∧ m < 60 then pure (some (-((h : Int) * 60 + m))) else none
  | _ => none

/-- `datetime.fromisoformat` on the strict `YYYY-MM-DD[THH:MM:SS[±HH:MM]]`
shapes that `git log --format=%aI` produces (after the `Z` replacement);
validates calendar ranges like Python does and returns `none` where Python
raises `ValueError`. -/
def parseIso (s : PyStr) : Option PyDateTime :=
  match s with
  | y1 :: y2 :: y3 :: y4 :: '-' :: m1 :: m2 :: '-' :: d1 :: d2 :: rest => do
    let y ← parse4 y1 y2 y3 y4
    let m ← parse2 m1 m2
    let d ← parse2 d1 d2
    if 1 ≤ m ∧ m ≤ 12 ∧ 1 ≤ d ∧ d ≤ daysInMonth y m ∧ 1 ≤ y then
      match rest with
      | [] => pure ⟨y, m, d, 0, 0, 0, none⟩
      | 'T' :: h1 :: h2 :: ':' :: n1 :: n2 :: ':' :: s1 :: s2 :: tail => do
        let h ← parse2 h1 h2
        let n ← parse2 n1 n2
        let sec ← parse2 s1 s2
        if h < 24 ∧ n < 60 ∧ sec < 60 then do
          let tz ← parseIsoOffset tail
          pure ⟨y, m, d, h, n, sec, tz⟩
        else none
      | _ => none
    else none
  | _ => none

/-- `datetime.strptime(s, "%Y-%m-%d").date()` on the zero-padded strings the
tool itself produces; validates ranges and returns `none` where Python raises. -/
def parseYmd (s : PyStr) : Option PyDate :=
  match s with
  | y1 :: y2 :: y3 :: y4 :: '-' :: m1 :: m2 :: '-' :: d1 :: d2 :: [] => do
    let y ← parse4 y1 y2 y3 y4
    let m ← parse2 m1 m2
    let d ← parse2 d1 d2
    if 1 ≤ m ∧ m ≤ 12 ∧ 1 ≤ d ∧ d ≤ daysInMonth y m ∧ 1 ≤ y then
      pure ⟨y, m, d⟩
    else none
  | _ => none

end Dates

section GitParser

/-- `LANGUAGE_MAP` from `git_parser.py`: extension (with dot, lowercase) to
language name. -/
def LANGUAGE_MAP : List (PyStr × PyStr) :=
  [ (pys ".py", pys "Python"), (pys ".js", pys "JavaScript"),
    (pys ".ts", pys "TypeScript"), (pys ".jsx", pys "JavaScript"),
    (pys ".tsx", pys "TypeScript"), (pys ".java", pys "Java"),
    (pys ".kt", pys "Kotlin"), (pys ".swift", pys "Swift"),
    (pys ".go", pys "Go"), (pys ".rs", pys "Rust"), (pys ".c", pys "C"),
    (pys ".cpp", pys "C++"), (pys ".cc", pys "C++"),
    (pys ".h", pys "C/C++ Header"), (pys ".hpp", pys "C++ Header"),
    (pys ".cs", pys "C#"), (pys ".rb", pys "Ruby"), (pys ".php", pys "PHP"),
    (pys ".vue", pys "Vue"), (pys ".svelte", pys "Svelte"),
    (pys ".html", pys "HTML"), (pys ".css", pys "CSS"),
    (pys ".scss", pys "SCSS"), (pys ".sass", pys "Sass"),
    (pys ".less", pys "Less"), (pys ".json", pys "JSON"),
    (pys ".yaml", pys "YAML"), (pys ".yml", pys "YAML"),
    (pys ".xml", pys "XML"), (pys ".sql", pys "SQL"),
    (pys ".sh", pys "Shell"), (pys ".bash", pys "Bash"),
    (pys ".zsh", pys "Zsh"), (pys ".ps1", pys "PowerShell"),
    (pys ".md", pys "Markdown"), (pys ".rst", pys "reStructuredText"),
    (pys ".lua", pys "Lua"), (pys ".r", pys "R"),
    (pys ".m", pys "Objective-C/MATLAB"), (pys ".dart", pys "Dart"),
    (pys ".scala", pys "Scala"), (pys ".groovy", pys "Groovy"),
    (pys ".pl", pys "Perl"), (pys ".ex", pys "Elixir"),
    (pys ".exs", pys "Elixir"), (pys ".erl", pys "Erlang"),
    (pys ".hs", pys "Haskell"), (pys ".ml", pys "OCaml"),
    (pys ".fs", pys "F#"), (pys ".clj", pys "Clojure"),
    (pys ".nim", pys "Nim"), (pys ".zig", pys "Zig"), (pys ".v", pys "V"),
    (pys ".sol", pys "Solidity") ]

/-- Association-list lookup (Python `dict.get`). -/
def assocGet (d : List (PyStr × PyStr)) (k : PyStr) : Option PyStr :=
  match d with
  | [] => none
  | (k', v) :: rest => if k = k' then some v else assocGet rest k

/-- Find the index of the last occurrence of a character (`str.rfind`),
`none` when absent. -/
def lastIndexOf (c : Char) (s : PyStr) : Option Nat :=
  s.reverse.indexOf? c |>.map (fun i => s.length - 1 - i)

/-- The final path component (`pathlib.PurePath(...).name` for the purposes
of suffix extraction; POSIX separators). -/
def pathBasename (filename : PyStr) : PyStr :=
  (pySplitChar '/' filename).getLastD []

/-- `pathlib.Path(filename).suffix`: the extension of the final path
component, i.e. the part from the last dot when that dot is neither the
first nor the last character of the name; empty otherwise. -/
def pathSuffix (filename : PyStr) : PyStr :=
  let name := pathBasename filename
  match lastIndexOf '.' name with
  | none => []
  | some i => if 0 < i ∧ i < name.length - 1 then name.drop i else []

/-- `get_language` from `git_parser.py`: map the lowercased file extension
through `LANGUAGE_MAP`. -/
def get_language (filename : PyStr) : Option PyStr :=
  assocGet LANGUAGE_MAP (pyLower (pathSuffix filename))

/-- `FileDiff` from `git_parser.py`: one file touched by one commit.
Line counts are Python `int`s, hence `Int`. -/
structure FileDiff where
  filename : PyStr
  language : Option PyStr := none
  added_lines : Int := 0
  deleted_lines : Int := 0
  empty_lines_added : Int := 0
deriving DecidableEq, Repr

/-- `CommitInfo` from `git_parser.py`: one commit record. -/
structure CommitInfo where
  hash : PyStr
  email : PyStr
  date : PyDateTime
  message : PyStr
  repo_name : PyStr := []
  files : List FileDiff := []
deriving DecidableEq, Repr

/-- State of the record loop in `parse_git_log`: seen hashes and the
accumulated commits. -/
structure LogState where
  seen : List PyStr
  commits : List CommitInfo
deriving DecidableEq, Repr

/-- Body of the per-record loop of `parse_git_log` (lines 147-179): strip the
record, skip empties, split into at most 4 NUL-delimited fields, skip
malformed records, normalise hash and email, strip the message, apply the
email filter and the per-repository hash dedup, parse the timestamp
(skipping on failure), and append the commit. -/
def processLogRecord (emails : List PyStr) (st : LogState) (record0 : PyStr) : LogState :=
  let record := pyStrip record0
  if record = [] then st
  else
    match pySplitAtMost nulChar 3 record with
    | [h, e, d, m] =>
      let email := pyLower e
      let hash := pyLower h
      let message := pyStrip m
      if emails ≠ [] ∧ email ∉ emails then st
      else if hash ∈ st.seen then st
      else
        let seen := st.seen ++ [hash]
        match parseIso (pyReplaceZ d) with
        | none => { seen := seen, commits := st.commits }
        | some dt =>
          { seen := seen,
            commits := st.commits ++ [{ hash := hash, email := email, date := dt, message := message }] }
    | _ => st

/-- `parse_git_log` from `git_parser.py`.  The `git log` subprocess result is
embedded as the explicit `(success, stdout)` pair `res`; the `year` argument
only shapes the git command line (the date window) and is unused when
decoding the output.  Returns the ordered, per-repository-deduplicated
commit list. -/
def parse_git_log (res : Bool × PyStr) (year : Nat) (emails : List PyStr) : List CommitInfo :=
  let (success, output) := res
  if ¬ success ∨ pyStrip output = [] then []
  else
    let records := pySplitDoubleNul output
    (records.foldl (processLogRecord emails) { seen := [], commits := [] }).commits

/-- Body of the per-line loop of `parse_git_diff` (lines 214-236): split on
tabs, skip lines with fewer than three fields, decode the added/deleted
counts where `-` is the binary sentinel meaning zero, skip the line when a
non-sentinel count fails integer parsing. -/
def parseDiffLine (line : PyStr) : Option FileDiff :=
  let parts := pySplitChar '\t' line
  match parts with
  | added :: deleted :: filename :: _ =>
    match (if added = pys "-" then some (0 : Int) else pyInt added),
          (if deleted = pys "-" then some (0 : Int) else pyInt deleted) with
    | some a, some d =>
      some { filename := filename, language := get_language filename,
             added_lines := a, deleted_lines := d }
    | _, _ => none
  | _ => none

/-- `parse_git_diff` from `git_parser.py`.  The two `git diff` subprocess
results (`<hash>^!` and the empty-tree fallback used for root commits) are
embedded as the explicit pairs `res1` and `res2`. -/
def parse_git_diff (res1 res2 : Bool × PyStr) : List FileDiff :=
  let r := if res1.1 then res1 else res2
  if ¬ r.1 ∨ pyStrip r.2 = [] then []
  else
    (pySplitChar '\n' (pyStrip r.2)).foldr
      (fun line acc => if line = [] then acc else
        match parseDiffLine line with
        | some fd => fd :: acc
        | none => acc) []

end GitParser

section MainPipeline

/-- State of the global dedup loop of `analyze_repos` in `main.py`: the
cross-repository `seen_hashes` set and the accumulated `all_commits` list. -/
structure RepoScanState where
  seen_hashes : List PyStr
  all_commits : List CommitInfo
deriving DecidableEq, Repr

/-- Body of the inner commit loop of `analyze_repos` (lines 146-152): the
commit is kept only when its hash was not seen in ANY previously processed
repository; kept commits get the repository name and their diff attached. -/
def analyzeReposStep (diff1 diff2 : PyStr → PyStr → Bool × PyStr) (repo : PyStr)
    (st : RepoScanState) (commit : CommitInfo) : RepoScanState :=
  if commit.hash ∈ st.seen_hashes then st
  else
    { seen_hashes := st.seen_hashes ++ [commit.hash],
      all_commits := st.all_commits ++
        [{ commit with repo_name := repo,
                       files := parse_git_diff (diff1 repo commit.hash) (diff2 repo commit.hash) }] }

/-- `analyze_repos` from `main.py` (lines 128-158).  The subprocess results
are embedded as oracles: `logRes repo` is the `git log` result for a
repository, `diff1 repo hash` / `diff2 repo hash` the two `git diff`
results.  Note `seen_hashes` is created once, before the repository loop,
so the dedup is global across repositories. -/
def analyzeRepos (repos : List PyStr) (logRes : PyStr → Bool × PyStr)
    (diff1 diff2 : PyStr → PyStr → Bool × PyStr) (year : Nat)
    (emails : List PyStr) : List CommitInfo :=
  (repos.foldl
    (fun st repo =>
      let commits := parse_git_log (logRes repo) year emails
      commits.foldl (analyzeReposStep diff1 diff2 repo) st)
    { seen_hashes := [], all_commits := [] }).all_commits

end MainPipeline

section StatisticsDefs

/-- `RepoSummary` from `statistics.py`. -/
structure RepoSummary where
  name : PyStr
  commits : Nat := 0
  added_lines : Int := 0
  deleted_lines : Int := 0
  languages : List (PyStr × Int) := []
  keywords : List PyStr := []
  main_work : List PyStr := []
  first_commit : Option PyStr := none
  last_commit : Option PyStr := none
  commit_messages : List (PyStr × PyStr) := []
deriving DecidableEq, Repr

/-- `YearStats` from `statistics.py`.  Python dicts are embedded as
insertion-ordered association lists. -/
structure YearStats where
  year : Nat
  total_commits : Nat := 0
  total_added_lines : Int := 0
  total_deleted_lines : Int := 0
  active_days : Nat := 0
  heatmap : List (Nat × Int) := []
  languages : List (PyStr × Int) := []
  commits_by_hour : List (Nat × Int) := []
  commits_by_weekday : List (Nat × Int) := []
  weekend_days : Nat := 0
  most_active_date : Option PyStr := none
  most_active_date_commits : Nat := 0
  most_active_month : Option Nat := none
  most_active_month_commits : Int := 0
  max_streak : Nat := 0
  current_streak : Nat := 0
  commit_words : List (PyStr × Int) := []
  repos_count : Nat := 0
  repos_stats : List (PyStr × Int) := []
  repo_summaries : List RepoSummary := []
  achievements : List (PyStr × PyStr) := []
deriving DecidableEq, Repr

/-- `DEFAULT_EXCLUDE_LANGUAGES` from `statistics.py`. -/
def DEFAULT_EXCLUDE_LANGUAGES : List PyStr :=
  [pys "Markdown", pys "JSON", pys "YAML", pys "XML", pys "reStructuredText"]

/-- Add `v` under key `k` in an insertion-ordered dict of numeric values:
Python `d[k] = d.get(k, 0) + v`, `defaultdict(int)` updates and
`Counter[k] += v` all behave this way (the key is created, at the end,
even when `v` is zero). -/
def dictAdd [DecidableEq κ] (d : List (κ × Int)) (k : κ) (v : Int) : List (κ × Int) :=
  match d with
  | [] => [(k, v)]
  | (k', v') :: rest =>
    if k = k' then (k', v' + v) :: rest else (k', v') :: dictAdd rest k v

/-- Append `a` to the list stored under `k` in a `defaultdict(list)`. -/
def dictAppend [DecidableEq κ] (d : List (κ × List α)) (k : κ) (a : α) :
    List (κ × List α) :=
  match d with
  | [] => [(k, [a])]
  | (k', l) :: rest =>
    if k = k' then (k', l ++ [a]) :: rest else (k', l) :: dictAppend rest k a

/-- Add an element to a Python `set` embedded as a duplicate-free list. -/
def setAdd [DecidableEq α] (s : List α) (a : α) : List α :=
  if a ∈ s then s else s ++ [a]

/-- An insertion-ordered `collections.Counter` over `PyStr` keys. -/
abbrev Counter := List (PyStr × Int)

/-- `Counter.update(words)`: increment each word in order. -/
def counterUpdateWords (c : Counter) (ws : List PyStr) : Counter :=
  ws.foldl (fun c w => dictAdd c w 1) c

/-- Count-descending comparison used by `Counter.most_common` /
`sorted(key=count, reverse=True)`: `a` may stay before `b` iff `a`'s count
is at least `b`'s. -/
def cge (a b : PyStr × Int) : Prop := b.2 ≤ a.2

instance : DecidableRel cge := fun a b => inferInstanceAs (Decidable (b.2 ≤ a.2))

instance : IsTotal (PyStr × Int) cge := ⟨fun a b => le_total b.2 a.2⟩

instance : IsTrans (PyStr × Int) cge := ⟨fun _ _ _ h1 h2 => le_trans h2 h1⟩

/-- `Counter.most_common(n)`: stable count-descending sort, first `n`
entries (CPython uses `heapq.nlargest`, documented as
`sorted(items, key=count, reverse=True)[:n]`, which is stable with ties
kept in counter insertion order). -/
def mostCommon (n : Nat) (c : Counter) : List (PyStr × Int) :=
  (List.insertionSort cge c).take n

/-- Python `max(items, key=f)`: the first element attaining the maximum,
`none` on an empty list (where Python raises). -/
def pyMaxBy [LinearOrder β] (f : α → β) : List α → Option α
  | [] => none
  | x :: xs => some (xs.foldl (fun m y => if f m < f y then y else m) x)

/-- `stop_words` from `extract_words` in `statistics.py`. -/
def stop_words : List PyStr :=
  [pys "the", pys "a", pys "an", pys "is", pys "are", pys "was", pys "were",
   pys "be", pys "been", pys "and", pys "or", pys "but", pys "in", pys "on",
   pys "at", pys "to", pys "for", pys "of", pys "with", pys "this",
   pys "that", pys "it", pys "from", pys "by", pys "as", pys "if",
   pys "not", pys "no", pys "fix", pys "add", pys "update", pys "remove",
   pys "change", pys "merge", pys "commit", pys "wip", pys "todo",
   pys "fixme", pys "xxx", pys "test", pys "tests", pys "file", pys "files"]

/-- A character kept by the `re.sub(r'[^\w\s一-鿿]', ' ', ...)`
cleanup: word characters (ASCII alphanumerics and underscore; the CJK
range is both in `\w` and listed explicitly) and whitespace. -/
def keptChar (c : Char) : Bool :=
  c.isAlphanum || c = '_' || (0x4e00 ≤ c.toNat && c.toNat ≤ 0x9fff) || pyIsSpace c

/-- `extract_words` from `statistics.py`: lowercase, replace every
non-word non-whitespace non-CJK character with a space, split on
whitespace, and drop short words and stop words. -/
def extract_words (text : PyStr) : List PyStr :=
  let cleaned := (pyLower text).map (fun c => if keptChar c then c else ' ')
  (pySplitWs cleaned).filter (fun w => w.length > 2 && w ∉ stop_words)

end StatisticsDefs

section Streaks

/-- Ordinal of a `PyDate`. -/
def PyDate.ord (d : PyDate) : Nat := dateOrdinal d.year d.month d.day

/-- Ascending comparison on dates used by `sorted(dates)`: chronological. -/
def dateLe (a b : PyDate) : Prop := a.ord ≤ b.ord

instance : DecidableRel dateLe := fun a b => inferInstanceAs (Decidable (a.ord ≤ b.ord))

instance : IsTotal PyDate dateLe := ⟨fun a b => le_total a.ord b.ord⟩

instance : IsTrans PyDate dateLe := ⟨fun _ _ _ h1 h2 => le_trans h1 h2⟩

/-- The longest-run scan of `calculate_streak` (lines 329-337): walk the
sorted date ordinals; a run extends when consecutive dates differ by exactly
one day, otherwise it resets to 1. -/
def maxStreakGo : Nat → Nat → Nat → List Nat → Nat
  | _, _, maxS, [] => maxS
  | prev, cur, maxS, o :: rest =>
    if (o : Int) - (prev : Int) = 1 then
      maxStreakGo o (cur + 1) (max maxS (cur + 1)) rest
    else maxStreakGo o 1 maxS rest

/-- Longest streak over sorted date ordinals (`max_streak = 1` before the
scan, matching the Python initialisation). -/
def maxStreakOf : List Nat → Nat
  | [] => 1
  | o :: rest => maxStreakGo o 1 1 rest

/-- The current-streak walk of `calculate_streak` (lines 340-346): starting
from `today`, count consecutive days whose `%Y-%m-%d` string is in the
active-date set.  The Python `while` loop terminates because the walked
date strings are distinct members of the finite set; fuel
`active.length + 1` suffices for exactly those runs. -/
def currentStreakGo (active : List PyStr) : Nat → PyDate → Nat
  | 0, _ => 0
  | fuel + 1, d =>
    if fmtYmdD d ∈ active then 1 + currentStreakGo active fuel (prevDate d)
    else 0

/-- `calculate_streak` from `statistics.py` (lines 319-348).  The `year`
parameter is unused, exactly as in the source; `today` embeds the
`date.today()` clock read. -/
def calculate_streak (active_dates : List PyStr) (year : Nat) (today : PyDate) :
    Nat × Nat :=
  if active_dates = [] then (0, 0)
  else
    let dates := List.insertionSort dateLe (active_dates.filterMap parseYmd)
    let max_streak := maxStreakOf (dates.map PyDate.ord)
    let current_streak := currentStreakGo active_dates (active_dates.length + 1) today
    (max_streak, current_streak)

end Streaks

section MainWork

/-- Python `pattern in msg` substring containment. -/
def containsSub (s p : PyStr) : Bool :=
  p.isPrefixOf s || (match s with
    | [] => false
    | _ :: rest => containsSub rest p)

/-- `work_patterns` from `analyze_main_work` in `statistics.py`, in dict
insertion order. -/
def work_patterns : List (PyStr × PyStr) :=
  [ (pys "feat", pys "新功能开发"), (pys "feature", pys "新功能开发"),
    (pys "新增", pys "新功能开发"), (pys "添加", pys "新功能开发"),
    (pys "fix", pys "Bug 修复"), (pys "bugfix", pys "Bug 修复"),
    (pys "修复", pys "Bug 修复"), (pys "refactor", pys "代码重构"),
    (pys "重构", pys "代码重构"), (pys "优化", pys "性能优化"),
    (pys "perf", pys "性能优化"), (pys "docs", pys "文档编写"),
    (pys "文档", pys "文档编写"), (pys "test", pys "测试相关"),
    (pys "测试", pys "测试相关"), (pys "style", pys "代码风格"),
    (pys "chore", pys "工程配置"), (pys "ci", pys "CI/CD 配置"),
    (pys "build", pys "构建相关"), (pys "deploy", pys "部署相关"),
    (pys "部署", pys "部署相关"), (pys "api", pys "API 开发"),
    (pys "接口", pys "API 开发"), (pys "ui", pys "UI 开发"),
    (pys "界面", pys "UI 开发"), (pys "database", pys "数据库相关"),
    (pys "数据库", pys "数据库相关"), (pys "security", pys "安全相关"),
    (pys "安全", pys "安全相关"), (pys "auth", pys "认证授权"),
    (pys "登录", pys "认证授权") ]

/-- `analyze_main_work` from `statistics.py`: substring-scan each commit
message against the pattern table, count matched work categories, return
the top five by frequency. -/
def analyze_main_work (commits : List CommitInfo) : List PyStr :=
  let work_counter := commits.foldl
    (fun c commit =>
      let msg_lower := pyLower commit.message
      work_patterns.foldl
        (fun c pw => if containsSub msg_lower pw.1 then dictAdd c pw.2 1 else c) c)
    []
  (mostCommon 5 work_counter).map Prod.fst

end MainWork

section RepoSummaries

/-- Chronological comparison on aware datetimes used by
`commit_dates.sort()` (Python compares aware datetimes by instant). -/
def dtLe (a b : PyDateTime) : Prop := dtInstant a ≤ dtInstant b

instance : DecidableRel dtLe := fun a b => inferInstanceAs (Decidable (dtInstant a ≤ dtInstant b))

instance : IsTotal PyDateTime dtLe := ⟨fun a b => le_total (dtInstant a) (dtInstant b)⟩

instance : IsTrans PyDateTime dtLe := ⟨fun _ _ _ h1 h2 => le_trans h1 h2⟩

/-- Lexicographic string order used by
`commit_messages.sort(key=lambda x: x[0])`. -/
def msgLe (a b : PyStr × PyStr) : Prop := ¬ List.Lex (· < ·) b.1 a.1

instance : DecidableRel msgLe := fun a b =>
  inferInstanceAs (Decidable (¬ List.Lex (· < ·) b.1 a.1))

instance : IsTotal (PyStr × PyStr) msgLe := by
  constructor
  intro a b
  rcases lt_trichotomy a.1 b.1 with h | h | h
  · exact Or.inl (asymm h)
  · exact Or.inl (fun hba => lt_irrefl a.1 (h ▸ hba))
  · exact Or.inr (asymm h)

instance : IsTrans (PyStr × PyStr) msgLe := by
  constructor
  intro a b c hab hbc hca
  rcases lt_trichotomy a.1 b.1 with h | h | h
  · exact hbc (lt_trans hca h)
  · exact hbc (h ▸ hca)
  · exact hab h

/-- Commit-count-descending comparison used by
`summaries.sort(key=lambda x: x.commits, reverse=True)` (stable: ties keep
grouping order). -/
def sumGe (a b : RepoSummary) : Prop := b.commits ≤ a.commits

instance : DecidableRel sumGe := fun a b => inferInstanceAs (Decidable (b.commits ≤ a.commits))

instance : IsTotal RepoSummary sumGe := ⟨fun a b => le_total b.commits a.commits⟩

instance : IsTrans RepoSummary sumGe := ⟨fun _ _ _ h1 h2 => le_trans h2 h1⟩

/-- Accumulator of the per-repository commit loop in
`generate_repo_summaries` (lines 207-223). -/
structure SummaryAcc where
  added_lines : Int := 0
  deleted_lines : Int := 0
  lang_counter : Counter := []
  word_counter : Counter := []
  commit_dates : List PyDateTime := []
  commit_messages : List (PyStr × PyStr) := []
deriving Repr

/-- Body of the per-file loop inside `generate_repo_summaries`
(lines 218-223): accumulate line totals; count added lines per language
except for excluded (or missing, or empty) languages. -/
def summaryFileStep (exclude : List PyStr) (a : SummaryAcc) (f : FileDiff) :
    SummaryAcc :=
  let a := { a with added_lines := a.added_lines + f.added_lines,
                    deleted_lines := a.deleted_lines + f.deleted_lines }
  match f.language with
  | some lang =>
    if lang ≠ [] ∧ lang ∉ exclude then
      { a with lang_counter := dictAdd a.lang_counter lang f.added_lines }
    else a
  | none => a

/-- Body of the per-repository commit loop in `generate_repo_summaries`. -/
def summaryStep (exclude : List PyStr) (a : SummaryAcc) (commit : CommitInfo) :
    SummaryAcc :=
  let a := { a with commit_dates := a.commit_dates ++ [commit.date] }
  let a := { a with commit_messages :=
      a.commit_messages ++ [(fmtYmdHM commit.date, commit.message)] }
  let a := { a with word_counter :=
      counterUpdateWords a.word_counter (extract_words commit.message) }
  commit.files.foldl (summaryFileStep exclude) a

/-- Build one `RepoSummary` from one repository's commit group
(`generate_repo_summaries` lines 198-243). -/
def buildSummary (exclude : List PyStr) (repo_name : PyStr)
    (repo_commit_list : List CommitInfo) : RepoSummary :=
  let acc := repo_commit_list.foldl (summaryStep exclude) {}
  let sorted_dates := List.insertionSort dtLe acc.commit_dates
  { name := repo_name,
    commits := repo_commit_list.length,
    added_lines := acc.added_lines,
    deleted_lines := acc.deleted_lines,
    languages := mostCommon 5 acc.lang_counter,
    keywords := (mostCommon 10 acc.word_counter).map Prod.fst,
    main_work := analyze_main_work repo_commit_list,
    first_commit := (sorted_dates.head?).map fmtYmd,
    last_commit := (sorted_dates.getLast?).map fmtYmd,
    commit_messages := List.insertionSort msgLe acc.commit_messages }

/-- `generate_repo_summaries` from `statistics.py`: group commits by
repository label (commits with an empty label are skipped), build one
summary per group, and sort the summaries by commit count descending. -/
def generate_repo_summaries (commits : List CommitInfo) (exclude : List PyStr) :
    List RepoSummary :=
  let repo_commits := commits.foldl
    (fun d c => if c.repo_name ≠ [] then dictAppend d c.repo_name c else d) []
  let summaries := repo_commits.map (fun g => buildSummary exclude g.1 g.2)
  List.insertionSort sumGe summaries

end RepoSummaries

section Achievements

/-- Volume-score badge of `calculate_achievements` (lines 356-366): five
mutually exclusive tiers of `total_commits * 10 + total_added_lines`. -/
def volumeBadge (stats : YearStats) : List (PyStr × PyStr) :=
  let score := (stats.total_commits : Int) * 10 + stats.total_added_lines
  if score > 100000 then [(pys "卷王本王", pys "代码量惊人，是团队的核心力量")]
  else if score > 10000 then [(pys "发奋图强", pys "持续高产出，令人敬佩")]
  else if score > 1000 then [(pys "勤劳努力", pys "稳定输出，值得表扬")]
  else if score > 500 then [(pys "小试牛刀", pys "初露锋芒，继续加油")]
  else [(pys "休养生息", pys "这一年比较轻松呢")]

/-- Language-count badge (lines 369-372). -/
def languageBadge (stats : YearStats) : List (PyStr × PyStr) :=
  if stats.languages.length ≥ 10 then
    [(pys "全栈大神", pys "精通 " ++ natToStr stats.languages.length ++ pys " 种编程语言")]
  else if stats.languages.length ≥ 6 then
    [(pys "编程语言大师", pys "使用了 " ++ natToStr stats.languages.length ++ pys " 种编程语言")]
  else []

/-- Favourite-hour badge (lines 375-388): one badge whenever any commit
exists, chosen by the first hour attaining the maximal count. -/
def hourBadge (stats : YearStats) : List (PyStr × PyStr) :=
  if stats.commits_by_hour ≠ [] then
    match pyMaxBy Prod.snd stats.commits_by_hour with
    | some fav =>
      let favorite_hour := fav.1
      if favorite_hour < 5 then [(pys "夜猫子", pys "凌晨还在写代码，注意休息")]
      else if favorite_hour < 10 then [(pys "早睡早起身体好", pys "早起的鸟儿有虫吃")]
      else if favorite_hour < 14 then [(pys "干饭人干饭魂", pys "午间时光也不忘coding")]
      else if favorite_hour < 17 then [(pys "下午茶时间", pys "下午是你的高效时段")]
      else if favorite_hour < 19 then [(pys "晚餐前冲刺", pys "抓住晚餐前的黄金时间")]
      else [(pys "夜间模式", pys "夜晚是你的创作时间")]
    | none => []
  else []

/-- Weekend badge (lines 391-394). -/
def weekendBadge (stats : YearStats) : List (PyStr × PyStr) :=
  if stats.weekend_days > 40 then
    [(pys "周末永动机", pys "周末提交了 " ++ natToStr stats.weekend_days ++ pys " 天，老板看了都流泪")]
  else if stats.weekend_days > 20 then
    [(pys "周末战士", pys "周末也提交了 " ++ natToStr stats.weekend_days ++ pys " 天")]
  else []

/-- Single-day-peak badge (lines 397-400). -/
def peakBadge (stats : YearStats) : List (PyStr × PyStr) :=
  if stats.most_active_date_commits > 100 then
    [(pys "代码狂人", pys "单日最高 " ++ natToStr stats.most_active_date_commits ++ pys " 次提交")]
  else if stats.most_active_date_commits > 50 then
    [(pys "Bugfix 制造机", pys "单日 " ++ natToStr stats.most_active_date_commits ++ pys " 次提交")]
  else []

/-- Streak badge (lines 403-408). -/
def streakBadge (stats : YearStats) : List (PyStr × PyStr) :=
  if stats.max_streak ≥ 30 then
    [(pys "坚持就是胜利", pys "连续 " ++ natToStr stats.max_streak ++ pys " 天提交，毅力惊人")]
  else if stats.max_streak ≥ 14 then
    [(pys "两周连击", pys "连续 " ++ natToStr stats.max_streak ++ pys " 天提交")]
  else if stats.max_streak ≥ 7 then
    [(pys "一周达人", pys "连续 " ++ natToStr stats.max_streak ++ pys " 天提交")]
  else []

/-- Active-days badge (lines 411-414). -/
def activeBadge (stats : YearStats) : List (PyStr × PyStr) :=
  if stats.active_days ≥ 300 then
    [(pys "全年无休", pys "活跃 " ++ natToStr stats.active_days ++ pys " 天，代码就是生活")]
  else if stats.active_days ≥ 200 then
    [(pys "劳模本模", pys "活跃 " ++ natToStr stats.active_days ++ pys " 天")]
  else []

/-- Net-lines badge (lines 417-423). -/
def netBadge (stats : YearStats) : List (PyStr × PyStr) :=
  let net_lines := stats.total_added_lines - stats.total_deleted_lines
  if net_lines > 1000000 then
    [(pys "百万代码", pys "净增 " ++ intToCommaStr net_lines ++ pys " 行代码")]
  else if net_lines > 100000 then
    [(pys "十万行家", pys "净增 " ++ intToCommaStr net_lines ++ pys " 行代码")]
  else if net_lines < -10000 then
    [(pys "代码清道夫", pys "净删除 " ++ intToCommaStr (-net_lines) ++ pys " 行代码，精简专家")]
  else []

/-- Deletion-ratio badge (lines 426-427).  The source compares against
`total_added_lines * 0.8` in binary floating point; it is embedded as the
exact rational comparison `5 * deleted > 4 * added`. -/
def refactorBadge (stats : YearStats) : List (PyStr × PyStr) :=
  if 5 * stats.total_deleted_lines > 4 * stats.total_added_lines then
    [(pys "重构达人", pys "删除的代码量接近新增量，重构高手")]
  else []

/-- `calculate_achievements` from `statistics.py` (lines 351-429): the
badge rules evaluated in source order; each category contributes zero or
one badge. -/
def calculate_achievements (stats : YearStats) : List (PyStr × PyStr) :=
  volumeBadge stats ++ languageBadge stats ++ hourBadge stats ++
    weekendBadge stats ++ peakBadge stats ++ streakBadge stats ++
    activeBadge stats ++ netBadge stats ++ refactorBadge stats

end Achievements

section Analyze

/-- State threaded through the per-commit loop of `analyze_commits`
(lines 104-149): the partially built `YearStats` plus the local
accumulators of the loop. -/
structure AnalyzeAcc where
  stats : YearStats
  commits_by_date : List (PyStr × List CommitInfo) := []
  commits_by_month : List (Nat × Int) := []
  active_dates : List PyStr := []
  weekend_dates : List PyStr := []
  word_counter : Counter := []
deriving Repr

/-- Body of the per-file loop of `analyze_commits` (lines 115-121):
accumulate the global line totals; count added lines per language except
for excluded (or missing, or empty) languages. -/
def fileStep (exclude : List PyStr) (s : YearStats) (f : FileDiff) : YearStats :=
  let s := { s with total_added_lines := s.total_added_lines + f.added_lines,
                    total_deleted_lines := s.total_deleted_lines + f.deleted_lines }
  match f.language with
  | some lang =>
    if lang ≠ [] ∧ lang ∉ exclude then
      { s with languages := dictAdd s.languages lang f.added_lines }
    else s
  | none => s

/-- Body of the per-commit loop of `analyze_commits` (lines 111-149). -/
def analyzeStep (exclude : List PyStr) (st : AnalyzeAcc) (commit : CommitInfo) :
    AnalyzeAcc :=
  let stats := st.stats
  let stats := { stats with total_commits := stats.total_commits + 1 }
  let stats := commit.files.foldl (fileStep exclude) stats
  let date_str := fmtYmd commit.date
  let commits_by_date := dictAppend st.commits_by_date date_str commit
  let active_dates := setAdd st.active_dates date_str
  let commits_by_month := dictAdd st.commits_by_month commit.date.month 1
  let day_of_year := dayOfYear commit.date.year commit.date.month commit.date.day
  let stats := { stats with heatmap := dictAdd stats.heatmap day_of_year 1 }
  let stats := { stats with commits_by_hour := dictAdd stats.commits_by_hour commit.date.hour 1 }
  let weekday := weekdayOf commit.date.year commit.date.month commit.date.day
  let stats := { stats with commits_by_weekday := dictAdd stats.commits_by_weekday weekday 1 }
  let weekend_dates := if weekday ≥ 5 then setAdd st.weekend_dates date_str else st.weekend_dates
  let word_counter := counterUpdateWords st.word_counter (extract_words commit.message)
  { stats := stats,
    commits_by_date := commits_by_date,
    commits_by_month := commits_by_month,
    active_dates := active_dates,
    weekend_dates := weekend_dates,
    word_counter := word_counter }

/-- `analyze_commits` from `statistics.py` (lines 80-180).  `today` embeds
the `date.today()` read performed inside `calculate_streak`. -/
def analyze_commits (commits : List CommitInfo) (year : Nat)
    (exclude_languages : Option (List PyStr)) (today : PyDate) : YearStats :=
  let exclude := exclude_languages.getD DEFAULT_EXCLUDE_LANGUAGES
  let stats0 : YearStats := { year := year }
  if commits = [] then stats0
  else
    let st := commits.foldl (analyzeStep exclude) { stats := stats0 }
    let stats := { st.stats with active_days := st.active_dates.length,
                                 weekend_days := st.weekend_dates.length }
    let stats :=
      match pyMaxBy (fun p => p.2.length) st.commits_by_date with
      | some most_active =>
        { stats with most_active_date := some most_active.1,
                     most_active_date_commits := most_active.2.length }
      | none => stats
    let stats :=
      match pyMaxBy Prod.snd st.commits_by_month with
      | some mam =>
        { stats with most_active_month := some mam.1,
                     most_active_month_commits := mam.2 }
      | none => stats
    let streaks := calculate_streak st.active_dates year today
    let stats := { stats with max_streak := streaks.1, current_streak := streaks.2 }
    let stats := { stats with commit_words := mostCommon 20 st.word_counter }
    let summaries := generate_repo_summaries commits exclude
    let stats := { stats with repo_summaries := summaries,
                              repos_count := summaries.length }
    { stats with achievements := calculate_achievements stats }

end Analyze

section TotalsLemmas

/-- Sum of added lines over a list of file changes. -/
def filesAdded (fs : List FileDiff) : Int := (fs.map FileDiff.added_lines).sum

/-- Sum of deleted lines over a list of file changes. -/
def filesDeleted (fs : List FileDiff) : Int := (fs.map FileDiff.deleted_lines).sum

/-- Sum of added lines over every file change of every commit. -/
def commitsAdded (cs : List CommitInfo) : Int := (cs.map (fun c => filesAdded c.files)).sum

/-- Sum of deleted lines over every file change of every commit. -/
def commitsDeleted (cs : List CommitInfo) : Int := (cs.map (fun c => filesDeleted c.files)).sum

lemma fileStep_total_added (ex : List PyStr) (s : YearStats) (f : FileDiff) :
    (fileStep ex s f).total_added_lines = s.total_added_lines + f.added_lines := by
  unfold fileStep
  cases f.language with
  | none => rfl
  | some lang =>
    dsimp only
    split <;> rfl

lemma fileStep_total_deleted (ex : List PyStr) (s : YearStats) (f : FileDiff) :
    (fileStep ex s f).total_deleted_lines = s.total_deleted_lines + f.deleted_lines := by
  unfold fileStep
  cases f.language with
  | none => rfl
  | some lang =>
    dsimp only
    split <;> rfl

lemma foldl_fileStep_total_added (ex : List PyStr) (fs : List FileDiff) (s : YearStats) :
    (fs.foldl (fileStep ex) s).total_added_lines = s.total_added_lines + filesAdded fs := by
  induction fs generalizing s with
  | nil => simp [filesAdded]
  | cons f fs ih =>
    simp only [List.foldl_cons, ih, fileStep_total_added, filesAdded, List.map_cons,
      List.sum_cons]
    ring

lemma foldl_fileStep_total_deleted (ex : List PyStr) (fs : List FileDiff) (s : YearStats) :
    (fs.foldl (fileStep ex) s).total_deleted_lines = s.total_deleted_lines + filesDeleted fs := by
  induction fs generalizing s with
  | nil => simp [filesDeleted]
  | cons f fs ih =>
    simp only [List.foldl_cons, ih, fileStep_total_deleted, filesDeleted, List.map_cons,
      List.sum_cons]
    ring

lemma analyzeStep_total_added (ex : List PyStr) (st : AnalyzeAcc) (c : CommitInfo) :
    (analyzeStep ex st c).stats.total_added_lines =
      st.stats.total_added_lines + filesAdded c.files := by
  simp [analyzeStep, foldl_fileStep_total_added]

lemma analyzeStep_total_deleted (ex : List PyStr) (st : AnalyzeAcc) (c : CommitInfo) :
    (analyzeStep ex st c).stats.total_deleted_lines =
      st.stats.total_deleted_lines + filesDeleted c.files := by
  simp [analyzeStep, foldl_fileStep_total_deleted]

lemma analyzeStep_total_commits (ex : List PyStr) (st : AnalyzeAcc) (c : CommitInfo) :
    (analyzeStep ex st c).stats.total_commits = st.stats.total_commits + 1 := by
  have h : ∀ (s : YearStats) (fs : List FileDiff),
      (fs.foldl (fileStep ex) s).total_commits = s.total_commits := by
    intro s fs
    induction fs generalizing s with
    | nil => rfl
    | cons f fs ih =>
      rw [List.foldl_cons, ih]
      unfold fileStep
      cases f.language with
      | none => rfl
      | some lang =>
        dsimp only
        split <;> rfl
  simp [analyzeStep, h]

lemma foldl_analyzeStep_total_added (ex : List PyStr) (cs : List CommitInfo) (st : AnalyzeAcc) :
    ((cs.foldl (analyzeStep ex) st).stats.total_added_lines) =
      st.stats.total_added_lines + commitsAdded cs := by
  induction cs generalizing st with
  | nil => simp [commitsAdded]
  | cons c cs ih =>
    simp only [List.foldl_cons, ih, analyzeStep_total_added, commitsAdded, List.map_cons,
      List.sum_cons]
    ring

lemma foldl_analyzeStep_total_deleted (ex : List PyStr) (cs : List CommitInfo) (st : AnalyzeAcc) :
    ((cs.foldl (analyzeStep ex) st).stats.total_deleted_lines) =
      st.stats.total_deleted_lines + commitsDeleted cs := by
  induction cs generalizing st with
  | nil => simp [commitsDeleted]
  | cons c cs ih =>
    simp only [List.foldl_cons, ih, analyzeStep_total_deleted, commitsDeleted, List.map_cons,
      List.sum_cons]
    ring

lemma foldl_analyzeStep_total_commits (ex : List PyStr) (cs : List CommitInfo) (st : AnalyzeAcc) :
    ((cs.foldl (analyzeStep ex) st).stats.total_commits) =
      st.stats.total_commits + cs.length := by
  induction cs generalizing st with
  | nil => simp
  | cons c cs ih =>
    simp only [List.foldl_cons, ih, analyzeStep_total_commits, List.length_cons]
    ring

lemma analyze_commits_total_added (commits : List CommitInfo) (year : Nat)
    (excl : Option (List PyStr)) (today : PyDate) :
    (analyze_commits commits year excl today).total_added_lines = commitsAdded commits := by
  unfold analyze_commits
  split
  · subst commits
    simp [commitsAdded]
  · dsimp only
    split <;> split <;>
      simp [foldl_analyzeStep_total_added, commitsAdded]

end TotalsLemmas

lemma analyze_commits_total_deleted (commits : List CommitInfo) (year : Nat)
    (excl : Option (List PyStr)) (today : PyDate) :
    (analyze_commits commits year excl today).total_deleted_lines = commitsDeleted commits := by
  unfold analyze_commits
  split
  · subst commits
    simp [commitsDeleted]
  · dsimp only
    split <;> split <;>
      simp [foldl_analyzeStep_total_deleted, commitsDeleted]

lemma analyze_commits_total_commits (commits : List CommitInfo) (year : Nat)
    (excl : Option (List PyStr)) (today : PyDate) :
    (analyze_commits commits year excl today).total_commits = commits.length := by
  unfold analyze_commits
  split
  · subst commits
    simp
  · dsimp only
    split <;> split <;>
      simp [foldl_analyzeStep_total_commits]

/-- C5: for every list of commit records (and any year, exclusion set and
reference date), the snapshot's `total_added_lines` equals the sum of
`added_lines` over every `FileDiff` of every commit, and
`total_deleted_lines` equals the corresponding sum of `deleted_lines`. -/
theorem C5_totals_accounting_invariant (commits : List CommitInfo) (year : Nat)
    (excl : Option (List PyStr)) (today : PyDate) :
    (analyze_commits commits year excl today).total_added_lines =
        ((commits.map (fun c => (c.files.map FileDiff.added_lines).sum)).sum) ∧
      (analyze_commits commits year excl today).total_deleted_lines =
        ((commits.map (fun c => (c.files.map FileDiff.deleted_lines).sum)).sum) := by
  refine ⟨?_, ?_⟩
  · rw [analyze_commits_total_added]
    rfl
  · rw [analyze_commits_total_deleted]
    rfl

section LanguageLemmas

/-- The language-dict part of `fileStep`, acting on the mapping alone. -/
def langUpdate (ex : List PyStr) (d : List (PyStr × Int)) (f : FileDiff) :
    List (PyStr × Int) :=
  match f.language with
  | some lang =>
    if lang ≠ [] ∧ lang ∉ ex then dictAdd d lang f.added_lines else d
  | none => d

lemma fileStep_languages (ex : List PyStr) (s : YearStats) (f : FileDiff) :
    (fileStep ex s f).languages = langUpdate ex s.languages f := by
  unfold fileStep langUpdate
  cases f.language with
  | none => rfl
  | some lang =>
    dsimp only
    split <;> rfl

lemma foldl_fileStep_languages (ex : List PyStr) (fs : List FileDiff) (s : YearStats) :
    (fs.foldl (fileStep ex) s).languages = fs.foldl (langUpdate ex) s.languages := by
  induction fs generalizing s with
  | nil => rfl
  | cons f fs ih =>
    simp only [List.foldl_cons, ih, fileStep_languages]

lemma langUpdate_excluded (ex : List PyStr) (d : List (PyStr × Int)) (f : FileDiff)
    (L : PyStr) (h1 : f.language = some L) (h2 : L ∈ ex) :
    langUpdate ex d f = d := by
  unfold langUpdate
  rw [h1]
  simp [h2]

lemma analyzeStep_languages (ex : List PyStr) (st : AnalyzeAcc) (c : CommitInfo) :
    (analyzeStep ex st c).stats.languages =
      c.files.foldl (langUpdate ex) st.stats.languages := by
  simp [analyzeStep, foldl_fileStep_languages]

lemma foldl_analyzeStep_languages (ex : List PyStr) (cs : List CommitInfo) (st : AnalyzeAcc) :
    ((cs.foldl (analyzeStep ex) st).stats.languages) =
      cs.foldl (fun d c => c.files.foldl (langUpdate ex) d) st.stats.languages := by
  induction cs generalizing st with
  | nil => rfl
  | cons c cs ih =>
    simp only [List.foldl_cons, ih, analyzeStep_languages]

lemma analyze_commits_languages (commits : List CommitInfo) (year : Nat)
    (excl : Option (List PyStr)) (today : PyDate) (h : commits ≠ []) :
    (analyze_commits commits year excl today).languages =
      commits.foldl (fun d c => c.files.foldl (langUpdate (excl.getD DEFAULT_EXCLUDE_LANGUAGES)) d) [] := by
  unfold analyze_commits
  rw [if_neg h]
  dsimp only
  split <;> split <;>
    simp [foldl_analyzeStep_languages]

/-- C7: a `FileDiff` whose language is in the excluded set contributes its
line counts to `total_added_lines` / `total_deleted_lines` but contributes
nothing to the snapshot's `languages` mapping: appending such a file change
to a commit leaves `languages` unchanged and raises the totals by exactly
its line counts. -/
theorem C7_excluded_language_lines_not_languages (commits : List CommitInfo)
    (c : CommitInfo) (fc : FileDiff) (L : PyStr)
    (hL : fc.language = some L) (hex : L ∈ DEFAULT_EXCLUDE_LANGUAGES)
    (year : Nat) (today : PyDate) :
    (analyze_commits (commits ++ [{ c with files := c.files ++ [fc] }]) year none today).languages
        = (analyze_commits (commits ++ [c]) year none today).languages
      ∧ (analyze_commits (commits ++ [{ c with files := c.files ++ [fc] }]) year none today).total_added_lines
        = (analyze_commits (commits ++ [c]) year none today).total_added_lines + fc.added_lines
      ∧ (analyze_commits (commits ++ [{ c with files := c.files ++ [fc] }]) year none today).total_deleted_lines
        = (analyze_commits (commits ++ [c]) year none today).total_deleted_lines + fc.deleted_lines := by
  refine ⟨?_, ?_, ?_⟩
  · rw [analyze_commits_languages _ _ _ _ (by simp),
      analyze_commits_languages _ _ _ _ (by simp)]
    simp only [List.foldl_append, List.foldl_cons, List.foldl_nil, Option.getD_none]
    rw [langUpdate_excluded _ _ _ L hL hex]
  · rw [analyze_commits_total_added, analyze_commits_total_added]
    simp [commitsAdded, filesAdded]
    ring
  · rw [analyze_commits_total_deleted, analyze_commits_total_deleted]
    simp [commitsDeleted, filesDeleted]
    ring

end LanguageLemmas

/-- A Markdown file change with 40 added lines (witness data). -/
def mdFile : FileDiff :=
  { filename := pys "README.md", language := some (pys "Markdown"),
    added_lines := 40, deleted_lines := 3 }

/-- A commit touching one Python file (witness data). -/
def baseCommit : CommitInfo :=
  { hash := pys "h1", email := pys "e@x", date := ⟨2024, 3, 4, 10, 0, 0, some 0⟩,
    message := pys "hello world", repo_name := pys "r1",
    files := [{ filename := pys "a.py", language := some (pys "Python"),
                added_lines := 10, deleted_lines := 2 }] }

/-- Witness for C7 at a concrete input: a Markdown file change with 40 added
lines leaves `languages` unchanged and raises `total_added_lines` by 40. -/
theorem C7_excluded_language_witness :
    (analyze_commits ([] ++ [{ baseCommit with files := baseCommit.files ++ [mdFile] }]) 2024 none ⟨2025, 1, 1⟩).languages
        = (analyze_commits ([] ++ [baseCommit]) 2024 none ⟨2025, 1, 1⟩).languages
      ∧ (analyze_commits ([] ++ [{ baseCommit with files := baseCommit.files ++ [mdFile] }]) 2024 none ⟨2025, 1, 1⟩).total_added_lines
        = (analyze_commits ([] ++ [baseCommit]) 2024 none ⟨2025, 1, 1⟩).total_added_lines + mdFile.added_lines
      ∧ (analyze_commits ([] ++ [{ baseCommit with files := baseCommit.files ++ [mdFile] }]) 2024 none ⟨2025, 1, 1⟩).total_deleted_lines
        = (analyze_commits ([] ++ [baseCommit]) 2024 none ⟨2025, 1, 1⟩).total_deleted_lines + mdFile.deleted_lines :=
  C7_excluded_language_lines_not_languages [] baseCommit mdFile (pys "Markdown")
    rfl (by decide) 2024 ⟨2025, 1, 1⟩

section FrameLemmas

/-- Replace only the `year` field of a snapshot. -/
def setYearS (y : Nat) (s : YearStats) : YearStats := { s with year := y }

/-- Replace only the `year` field of the loop accumulator's snapshot. -/
def setYearA (y : Nat) (st : AnalyzeAcc) : AnalyzeAcc :=
  { st with stats := setYearS y st.stats }

lemma fileStep_setYear (ex : List PyStr) (y : Nat) (s : YearStats) (f : FileDiff) :
    fileStep ex (setYearS y s) f = setYearS y (fileStep ex s f) := by
  unfold fileStep setYearS
  cases f.language with
  | none => rfl
  | some lang =>
    dsimp only
    split <;> rfl

lemma foldl_fileStep_setYear (ex : List PyStr) (y : Nat) (fs : List FileDiff) (s : YearStats) :
    fs.foldl (fileStep ex) (setYearS y s) = setYearS y (fs.foldl (fileStep ex) s) := by
  induction fs generalizing s with
  | nil => rfl
  | cons f fs ih =>
    simp only [List.foldl_cons, fileStep_setYear, ih]

lemma analyzeStep_setYear (ex : List PyStr) (y : Nat) (st : AnalyzeAcc) (c : CommitInfo) :
    analyzeStep ex (setYearA y st) c = setYearA y (analyzeStep ex st c) := by
  unfold analyzeStep
  dsimp only [setYearA]
  rw [show ({ setYearS y st.stats with
        total_commits := (setYearS y st.stats).total_commits + 1 } : YearStats) =
      setYearS y { st.stats with total_commits := st.stats.total_commits + 1 } from rfl]
  rw [foldl_fileStep_setYear]
  rfl

lemma foldl_analyzeStep_setYear (ex : List PyStr) (y : Nat) (cs : List CommitInfo)
    (st : AnalyzeAcc) :
    cs.foldl (analyzeStep ex) (setYearA y st) = setYearA y (cs.foldl (analyzeStep ex) st) := by
  induction cs generalizing st with
  | nil => rfl
  | cons c cs ih =>
    simp only [List.foldl_cons, analyzeStep_setYear, ih]

lemma calculate_streak_year_irrelevant (a : List PyStr) (y1 y2 : Nat) (t : PyDate) :
    calculate_streak a y1 t = calculate_streak a y2 t := rfl

/-- The two components of `calculate_streak` in closed form: the first never
depends on `today`, the second never on the dataset order. -/
lemma calculate_streak_eq (a : List PyStr) (y : Nat) (t : PyDate) :
    calculate_streak a y t =
      ((if a = [] then 0
        else maxStreakOf ((List.insertionSort dateLe (a.filterMap parseYmd)).map PyDate.ord)),
       (if a = [] then 0 else currentStreakGo a (a.length + 1) t)) := by
  unfold calculate_streak
  split <;> simp_all

end FrameLemmas

/-- C9: the aggregation engine enforces no year window: every commit in the
input is counted (`total_commits` is the full input length regardless of
timestamps), two calls differing only in the `year` argument produce
snapshots differing only in the `year` field, and `calculate_streak`
ignores its `year` parameter entirely. -/
theorem C9_year_argument_frame (commits : List CommitInfo) (y1 y2 : Nat)
    (excl : Option (List PyStr)) (today : PyDate) (active : List PyStr) :
    analyze_commits commits y1 excl today =
        setYearS y1 (analyze_commits commits y2 excl today)
      ∧ (analyze_commits commits y1 excl today).total_commits = commits.length
      ∧ calculate_streak active y1 today = calculate_streak active y2 today := by
  refine ⟨?_, analyze_commits_total_commits commits y1 excl today,
    calculate_streak_year_irrelevant active y1 y2 today⟩
  unfold analyze_commits
  by_cases h : commits = []
  · subst h
    rw [if_pos rfl, if_pos rfl]
    rfl
  · rw [if_neg h, if_neg h]
    dsimp only
    rw [show ({ stats := { year := y1 } } : AnalyzeAcc) =
        setYearA y1 { stats := { year := y2 } } from rfl]
    rw [foldl_analyzeStep_setYear]
    generalize (commits.foldl (analyzeStep (excl.getD DEFAULT_EXCLUDE_LANGUAGES))
      { stats := { year := y2 } } : AnalyzeAcc) = st2
    obtain ⟨s2, cbd, cbm, ad, wd, wc⟩ := st2
    obtain ⟨f1, f2, f3, f4, f5, f6, f7, f8, f9, f10, f11, f12, f13, f14, f15, f16,
      f17, f18, f19, f20, f21⟩ := s2
    dsimp only [setYearA, setYearS]
    split <;> split <;> rfl

/-- Replace only the `current_streak` field of a snapshot. -/
def setCurS (n : Nat) (s : YearStats) : YearStats := { s with current_streak := n }

/-- C3 (amended): aggregation is deterministic only up to the evaluation
date: `calculate_streak` reads the real-world clock (`date.today()`,
embedded as `today`) instead of an injectable reference date, so two
evaluations of `analyze_commits` on the same input at different times agree
on every field except `current_streak`. -/
theorem C3_deterministic_except_current_streak (commits : List CommitInfo) (year : Nat)
    (excl : Option (List PyStr)) (t1 t2 : PyDate) :
    setCurS 0 (analyze_commits commits year excl t1) =
      setCurS 0 (analyze_commits commits year excl t2) := by
  unfold analyze_commits
  by_cases h : commits = []
  · subst h
    rfl
  · rw [if_neg h, if_neg h]
    dsimp only
    generalize (commits.foldl (analyzeStep (excl.getD DEFAULT_EXCLUDE_LANGUAGES))
      { stats := { year := year } } : AnalyzeAcc) = st2
    obtain ⟨s2, cbd, cbm, ad, wd, wc⟩ := st2
    obtain ⟨f1, f2, f3, f4, f5, f6, f7, f8, f9, f10, f11, f12, f13, f14, f15, f16,
      f17, f18, f19, f20, f21⟩ := s2
    rw [calculate_streak_eq ad year t1, calculate_streak_eq ad year t2]
    dsimp only [setCurS]
    split <;> split <;> rfl

/-- Counterexample to C3 as stated: the same input aggregated at two
different real-world dates yields different snapshots — `current_streak`
is 1 when "today" is the commit's own day and 0 two days later. -/
theorem C3_counterexample_clock_dependence :
    (analyze_commits [baseCommit] 2024 none ⟨2024, 3, 4⟩).current_streak = 1
      ∧ (analyze_commits [baseCommit] 2024 none ⟨2024, 3, 6⟩).current_streak = 0
      ∧ analyze_commits [baseCommit] 2024 none ⟨2024, 3, 4⟩ ≠
          analyze_commits [baseCommit] 2024 none ⟨2024, 3, 6⟩ := by
  refine ⟨by decide, by decide, by decide⟩

section RepoCountLemmas

/-- The step of the grouping fold in `generate_repo_summaries`, on the key
set alone: record a first-seen nonempty repository label. -/
def nameAcc (ks : List PyStr) (c : CommitInfo) : List PyStr :=
  if c.repo_name ≠ [] then
    (if c.repo_name ∈ ks then ks else ks ++ [c.repo_name])
  else ks

/-- The grouping step of `generate_repo_summaries`. -/
def groupStep (d : List (PyStr × List CommitInfo)) (c : CommitInfo) :
    List (PyStr × List CommitInfo) :=
  if c.repo_name ≠ [] then dictAppend d c.repo_name c else d

lemma generate_repo_summaries_eq_group (commits : List CommitInfo) (ex : List PyStr) :
    generate_repo_summaries commits ex =
      List.insertionSort sumGe
        ((commits.foldl groupStep []).map (fun g => buildSummary ex g.1 g.2)) := by
  rfl

lemma dictAppend_keys (d : List (PyStr × List CommitInfo)) (k : PyStr) (a : CommitInfo) :
    (dictAppend d k a).map Prod.fst =
      if k ∈ d.map Prod.fst then d.map Prod.fst else d.map Prod.fst ++ [k] := by
  induction d with
  | nil => simp [dictAppend]
  | cons p rest ih =>
    obtain ⟨k', l⟩ := p
    by_cases hk : k = k'
    · subst hk
      simp [dictAppend]
    · simp only [dictAppend, if_neg hk, List.map_cons, ih]
      by_cases hmem : k ∈ rest.map Prod.fst
      · simp [hmem, hk]
      · simp [hmem, hk]

lemma groupFold_keys (cs : List CommitInfo) (d : List (PyStr × List CommitInfo)) :
    (cs.foldl groupStep d).map Prod.fst = cs.foldl nameAcc (d.map Prod.fst) := by
  induction cs generalizing d with
  | nil => rfl
  | cons c cs ih =>
    simp only [List.foldl_cons, ih]
    congr 1
    unfold groupStep nameAcc
    by_cases h : c.repo_name = []
    · simp [h]
    · simp only [h, if_pos (by simp [h] : c.repo_name ≠ [])]
      rw [dictAppend_keys]

lemma nameAccFold_nodup (cs : List CommitInfo) (ks : List PyStr) (h : ks.Nodup) :
    (cs.foldl nameAcc ks).Nodup := by
  induction cs generalizing ks with
  | nil => exact h
  | cons c cs ih =>
    refine ih _ ?_
    unfold nameAcc
    split
    · split
      · exact h
      · next hmem =>
        rw [List.nodup_append]
        refine ⟨h, List.nodup_singleton _, ?_⟩
        intro a ha hb
        rw [List.mem_singleton] at hb
        subst hb
        exact hmem ha
    · exact h

lemma nameAccFold_mem (cs : List CommitInfo) (ks : List PyStr) (x : PyStr) :
    x ∈ cs.foldl nameAcc ks ↔
      x ∈ ks ∨ (x ∈ cs.map CommitInfo.repo_name ∧ x ≠ []) := by
  induction cs generalizing ks with
  | nil => simp
  | cons c cs ih =>
    simp only [List.foldl_cons, ih, List.map_cons, List.mem_cons]
    unfold nameAcc
    by_cases h : c.repo_name = [] <;> by_cases hmem : c.repo_name ∈ ks <;>
      aesop

lemma analyze_commits_repos_count (commits : List CommitInfo) (year : Nat)
    (excl : Option (List PyStr)) (today : PyDate) :
    (analyze_commits commits year excl today).repos_count =
      (generate_repo_summaries commits (excl.getD DEFAULT_EXCLUDE_LANGUAGES)).length := by
  unfold analyze_commits
  split
  · subst commits
    simp [generate_repo_summaries]
  · dsimp only

end RepoCountLemmas

lemma groupFold_filter (cs : List CommitInfo) (d : List (PyStr × List CommitInfo)) :
    cs.foldl groupStep d =
      (cs.filter (fun c => c.repo_name ≠ [])).foldl groupStep d := by
  induction cs generalizing d with
  | nil => rfl
  | cons c cs ih =>
    by_cases h : c.repo_name = []
    · rw [List.foldl_cons, List.filter_cons]
      simp only [h, ne_eq, not_true_eq_false, decide_False]
      rw [show groupStep d c = d from by unfold groupStep; simp [h]]
      exact ih d
    · rw [List.foldl_cons, List.filter_cons]
      simp only [ne_eq, h, not_false_eq_true, decide_True, List.foldl_cons]
      exact ih (groupStep d c)

/-- C10: a commit whose repository label is empty is counted in the global
totals but excluded from every per-repository summary; `repos_count` counts
only distinct nonempty labels, so it can be strictly smaller than the
number of distinct labels (concretely: one empty-labelled commit gives
`total_commits = 1` but `repos_count = 0`). -/
theorem C10_empty_repo_label (commits : List CommitInfo) (year : Nat)
    (excl : Option (List PyStr)) (today : PyDate) (ex : List PyStr) :
    (analyze_commits commits year excl today).total_commits = commits.length
      ∧ generate_repo_summaries commits ex =
          generate_repo_summaries (commits.filter (fun c => c.repo_name ≠ [])) ex
      ∧ (analyze_commits commits year excl today).repos_count =
          ((commits.map CommitInfo.repo_name).filter (fun n => n ≠ [])).toFinset.card
      ∧ (analyze_commits [{ baseCommit with repo_name := [] }] 2024 none ⟨2025, 1, 1⟩).repos_count = 0
      ∧ (analyze_commits [{ baseCommit with repo_name := [] }] 2024 none ⟨2025, 1, 1⟩).total_commits = 1 := by
  refine ⟨analyze_commits_total_commits commits year excl today, ?_, ?_, by decide, by decide⟩
  · rw [generate_repo_summaries_eq_group, generate_repo_summaries_eq_group,
      groupFold_filter]
  · rw [analyze_commits_repos_count]
    rw [generate_repo_summaries_eq_group]
    rw [(List.perm_insertionSort sumGe _).length_eq, List.length_map]
    have hlen : (commits.foldl groupStep []).length =
        ((commits.foldl groupStep []).map Prod.fst).length := (List.length_map _ _).symm
    rw [hlen, groupFold_keys]
    simp only [List.map_nil]
    have hnd : (commits.foldl nameAcc ([] : List PyStr)).Nodup :=
      nameAccFold_nodup commits _ List.nodup_nil
    have hfin : (commits.foldl nameAcc ([] : List PyStr)).toFinset =
        ((commits.map CommitInfo.repo_name).filter (fun n => n ≠ [])).toFinset := by
      apply Finset.ext
      intro a
      simp only [List.mem_toFinset, nameAccFold_mem, List.mem_filter,
        List.not_mem_nil, false_or, decide_eq_true_eq, ne_eq]
    rw [← List.toFinset_card_of_nodup hnd, hfin]

section VolumeBadges

/-- The five volume-tier badge names of `calculate_achievements`. -/
def volumeNames : List PyStr :=
  [pys "卷王本王", pys "发奋图强", pys "勤劳努力", pys "小试牛刀", pys "休养生息"]

/-- Restriction of an achievement list to volume-tier badges. -/
def volumeFilter (l : List (PyStr × PyStr)) : List (PyStr × PyStr) :=
  l.filter (fun p => p.1 ∈ volumeNames)

lemma volumeFilter_append (a b : List (PyStr × PyStr)) :
    volumeFilter (a ++ b) = volumeFilter a ++ volumeFilter b := by
  simp [volumeFilter]

lemma volumeFilter_volumeBadge (s : YearStats) :
    volumeFilter (volumeBadge s) = volumeBadge s := by
  unfold volumeBadge
  dsimp only
  split <;> try rfl
  split <;> try rfl
  split <;> try rfl
  split <;> rfl

lemma volumeFilter_languageBadge (s : YearStats) :
    volumeFilter (languageBadge s) = [] := by
  unfold languageBadge
  split <;> try rfl
  split <;> rfl

lemma volumeFilter_hourBadge (s : YearStats) :
    volumeFilter (hourBadge s) = [] := by
  unfold hourBadge
  split
  · split
    · dsimp only
      split <;> try rfl
      split <;> try rfl
      split <;> try rfl
      split <;> try rfl
      split <;> rfl
    · rfl
  · rfl

lemma volumeFilter_weekendBadge (s : YearStats) :
    volumeFilter (weekendBadge s) = [] := by
  unfold weekendBadge
  split <;> try rfl
  split <;> rfl

lemma volumeFilter_peakBadge (s : YearStats) :
    volumeFilter (peakBadge s) = [] := by
  unfold peakBadge
  split <;> try rfl
  split <;> rfl

lemma volumeFilter_streakBadge (s : YearStats) :
    volumeFilter (streakBadge s) = [] := by
  unfold streakBadge
  split <;> try rfl
  split <;> try rfl
  split <;> rfl

lemma volumeFilter_activeBadge (s : YearStats) :
    volumeFilter (activeBadge s) = [] := by
  unfold activeBadge
  split <;> try rfl
  split <;> rfl

lemma volumeFilter_netBadge (s : YearStats) :
    volumeFilter (netBadge s) = [] := by
  unfold netBadge
  dsimp only
  split <;> try rfl
  split <;> try rfl
  split <;> rfl

lemma volumeFilter_refactorBadge (s : YearStats) :
    volumeFilter (refactorBadge s) = [] := by
  unfold refactorBadge
  split <;> rfl

/-- C2 (amended): a snapshot with `total_commits = 50` and
`total_added_lines = 100000` has volume score 100500, which exceeds the top
threshold 100000, so the evaluator emits exactly one volume badge and it is
the "卷王本王" tier, not the "发奋图强" tier claimed by the spec. -/
theorem C2_volume_badge_tier (stats : YearStats)
    (h1 : stats.total_commits = 50) (h2 : stats.total_added_lines = 100000) :
    volumeFilter (calculate_achievements stats) =
      [(pys "卷王本王", pys "代码量惊人，是团队的核心力量")] := by
  unfold calculate_achievements
  simp only [volumeFilter_append, volumeFilter_volumeBadge, volumeFilter_languageBadge,
    volumeFilter_hourBadge, volumeFilter_weekendBadge, volumeFilter_peakBadge,
    volumeFilter_streakBadge, volumeFilter_activeBadge, volumeFilter_netBadge,
    volumeFilter_refactorBadge, List.append_nil]
  unfold volumeBadge
  dsimp only
  rw [h1, h2]
  norm_num

/-- The snapshot of the C2 scenario: 50 commits, 100000 added lines. -/
def stats50 : YearStats :=
  { year := 2024, total_commits := 50, total_added_lines := 100000 }

/-- Counterexample to C2 as stated: at `total_commits = 50`,
`total_added_lines = 100000` the volume badge emitted is "卷王本王"
(score 100500 > 100000), and the "发奋图强" badge claimed by the spec is
not among the achievements at all. -/
theorem C2_counterexample_wrong_tier :
    volumeFilter (calculate_achievements stats50) =
        [(pys "卷王本王", pys "代码量惊人，是团队的核心力量")]
      ∧ (pys "发奋图强", pys "持续高产出，令人敬佩") ∉ calculate_achievements stats50 :=
  ⟨by decide, by decide⟩

/-- Witness for the amended C2 theorem at the concrete snapshot. -/
theorem C2_volume_badge_tier_witness :
    volumeFilter (calculate_achievements stats50) =
      [(pys "卷王本王", pys "代码量惊人，是团队的核心力量")] :=
  C2_volume_badge_tier stats50 rfl rfl

section KeywordLemmas

/-- Fold the word counter over a list of messages, starting from `c0`
(the per-message tokenisation/counting of `analyze_commits` lines 147-149). -/
def wordCounterFrom (c0 : Counter) (msgs : List PyStr) : Counter :=
  msgs.foldl (fun c m => counterUpdateWords c (extract_words m)) c0

/-- The word counter built from a message list. -/
def wordCounterOf (msgs : List PyStr) : Counter := wordCounterFrom [] msgs

lemma analyzeStep_word_counter (ex : List PyStr) (st : AnalyzeAcc) (c : CommitInfo) :
    (analyzeStep ex st c).word_counter =
      counterUpdateWords st.word_counter (extract_words c.message) := rfl

lemma foldl_analyzeStep_word_counter (ex : List PyStr) (cs : List CommitInfo)
    (st : AnalyzeAcc) :
    (cs.foldl (analyzeStep ex) st).word_counter =
      wordCounterFrom st.word_counter (cs.map CommitInfo.message) := by
  induction cs generalizing st with
  | nil => rfl
  | cons c cs ih =>
    simp only [List.foldl_cons, ih, analyzeStep_word_counter, wordCounterFrom,
      List.map_cons]

lemma analyze_commits_commit_words (commits : List CommitInfo) (year : Nat)
    (excl : Option (List PyStr)) (today : PyDate) (h : commits ≠ []) :
    (analyze_commits commits year excl today).commit_words =
      mostCommon 20 (wordCounterOf (commits.map CommitInfo.message)) := by
  unfold analyze_commits
  rw [if_neg h]
  dsimp only
  rw [foldl_analyzeStep_word_counter]
  rfl

lemma dictAdd_keys (d : Counter) (k : PyStr) (v : Int) :
    (dictAdd d k v).map Prod.fst =
      if k ∈ d.map Prod.fst then d.map Prod.fst else d.map Prod.fst ++ [k] := by
  induction d with
  | nil => simp [dictAdd]
  | cons p rest ih =>
    obtain ⟨k', v'⟩ := p
    by_cases hk : k = k'
    · subst hk
      simp [dictAdd]
    · simp only [dictAdd, if_neg hk, List.map_cons, ih]
      by_cases hmem : k ∈ rest.map Prod.fst
      · simp [hmem, hk]
      · simp [hmem, hk]

lemma dictAdd_keys_nodup (d : Counter) (k : PyStr) (v : Int)
    (h : (d.map Prod.fst).Nodup) : ((dictAdd d k v).map Prod.fst).Nodup := by
  rw [dictAdd_keys]
  split
  · exact h
  · next hmem =>
    rw [List.nodup_append]
    refine ⟨h, List.nodup_singleton _, ?_⟩
    intro a ha hb
    rw [List.mem_singleton] at hb
    subst hb
    exact hmem ha

lemma counterUpdateWords_keys_nodup (c : Counter) (ws : List PyStr)
    (h : (c.map Prod.fst).Nodup) : ((counterUpdateWords c ws).map Prod.fst).Nodup := by
  induction ws generalizing c with
  | nil => exact h
  | cons w ws ih => exact ih _ (dictAdd_keys_nodup c w 1 h)

lemma wordCounterFrom_keys_nodup (c0 : Counter) (msgs : List PyStr)
    (h : (c0.map Prod.fst).Nodup) :
    ((wordCounterFrom c0 msgs).map Prod.fst).Nodup := by
  induction msgs generalizing c0 with
  | nil => exact h
  | cons m msgs ih => exact ih _ (counterUpdateWords_keys_nodup c0 _ h)

lemma wordCounterOf_nodup (msgs : List PyStr) : (wordCounterOf msgs).Nodup :=
  List.Nodup.of_map Prod.fst (wordCounterFrom_keys_nodup [] msgs List.nodup_nil)

lemma filter_orderedInsert (k : Int) (x : PyStr × Int) (l : List (PyStr × Int)) :
    (List.orderedInsert cge x l).filter (fun p => p.2 = k) =
      if x.2 = k then x :: l.filter (fun p => p.2 = k)
      else l.filter (fun p => p.2 = k) := by
  induction l with
  | nil =>
    rw [List.orderedInsert_nil]
    simp [List.filter_cons]
  | cons y ys ih =>
    rw [List.orderedInsert]
    by_cases hc : cge x y
    · rw [if_pos hc]
      by_cases hx : x.2 = k
      · simp [List.filter_cons, hx]
      · simp [List.filter_cons, hx]
    · rw [if_neg hc]
      have hlt : x.2 < y.2 := lt_of_not_le hc
      by_cases hx : x.2 = k
      · have hy : ¬ (y.2 = k) := by
          intro hy
          rw [hx, hy] at hlt
          exact lt_irrefl k hlt
        simp only [List.filter_cons, hy, decide_eq_true_eq, if_false, ih, hx, if_true,
          decide_False]
        simp [hx, hy]
      · simp only [List.filter_cons, ih, hx]
        simp [hx]

lemma filter_insertionSort (k : Int) (l : List (PyStr × Int)) :
    (List.insertionSort cge l).filter (fun p => p.2 = k) =
      l.filter (fun p => p.2 = k) := by
  induction l with
  | nil => rfl
  | cons x xs ih =>
    rw [List.insertionSort, filter_orderedInsert]
    by_cases hx : x.2 = k
    · simp [List.filter_cons, hx, ih]
    · simp [List.filter_cons, hx, ih]

lemma pair_sublist_of_mem {α : Type} (l : List α) (a b : α) (hab : a ≠ b)
    (ha : a ∈ l) (hb : b ∈ l) : [a, b].Sublist l ∨ [b, a].Sublist l := by
  induction l with
  | nil => cases ha
  | cons x xs ih =>
    rcases List.mem_cons.mp ha with hax | hax
    · subst hax
      rcases List.mem_cons.mp hb with hbx | hbx
      · exact absurd hbx.symm hab
      · exact Or.inl (List.cons_sublist_cons.mpr (List.singleton_sublist.mpr hbx))
    · rcases List.mem_cons.mp hb with hbx | hbx
      · subst hbx
        exact Or.inr (List.cons_sublist_cons.mpr (List.singleton_sublist.mpr hax))
      · rcases ih hax hbx with h | h
        · exact Or.inl (h.cons x)
        · exact Or.inr (h.cons x)

lemma sublist_pair_antisymm {α : Type} (l : List α) (a b : α) (hnd : l.Nodup)
    (h1 : [a, b].Sublist l) (h2 : [b, a].Sublist l) : a = b := by
  induction l with
  | nil => cases h1
  | cons x xs ih =>
    have hx : x ∉ xs := (List.nodup_cons.mp hnd).1
    have hnd' : xs.Nodup := (List.nodup_cons.mp hnd).2
    rcases List.cons_sublist_cons'.mp h1 with h1' | ⟨hax, h1'⟩
    · rcases List.cons_sublist_cons'.mp h2 with h2' | ⟨hbx, h2'⟩
      · exact ih hnd' h1' h2'
      · subst hbx
        exact absurd (h1'.subset (by simp)) hx
    · subst hax
      rcases List.cons_sublist_cons'.mp h2 with h2' | ⟨hbx, h2'⟩
      · exact absurd (h2'.subset (by simp)) hx
      · exact hbx.symm

end KeywordLemmas

/-- C6: the snapshot's top-20 keyword ranking is frequency-descending
(`cge`-pairwise-sorted) and ties are broken by first-insertion order into
the counter: whenever token `u` enters the counter before token `v`
(`[(u,c),(v,c)]` is a sublist of the insertion-ordered counter) and both
reach the top 20 with the same final count `c`, `u` ranks before `v`. -/
theorem C6_keyword_ranking_tie_break (commits : List CommitInfo) (year : Nat)
    (excl : Option (List PyStr)) (today : PyDate) (u v : PyStr) (c : Int)
    (hcl : [(u, c), (v, c)].Sublist (wordCounterOf (commits.map CommitInfo.message)))
    (hu : (u, c) ∈ (analyze_commits commits year excl today).commit_words)
    (hv : (v, c) ∈ (analyze_commits commits year excl today).commit_words) :
    [(u, c), (v, c)].Sublist ((analyze_commits commits year excl today).commit_words)
      ∧ List.Pairwise cge ((analyze_commits commits year excl today).commit_words) := by
  by_cases h : commits = []
  · exfalso
    subst h
    simp [analyze_commits] at hu
  · rw [analyze_commits_commit_words commits year excl today h] at hu hv ⊢
    have hndcl : (wordCounterOf (commits.map CommitInfo.message)).Nodup :=
      wordCounterOf_nodup _
    have hsorted : List.Pairwise cge
        (List.insertionSort cge (wordCounterOf (commits.map CommitInfo.message))) :=
      List.sorted_insertionSort cge _
    have hperm := List.perm_insertionSort cge (wordCounterOf (commits.map CommitInfo.message))
    have hndsort : (List.insertionSort cge
        (wordCounterOf (commits.map CommitInfo.message))).Nodup :=
      hperm.nodup_iff.mpr hndcl
    have hms : (mostCommon 20 (wordCounterOf (commits.map CommitInfo.message))).Sublist
        (List.insertionSort cge (wordCounterOf (commits.map CommitInfo.message))) :=
      List.take_sublist _ _
    constructor
    · have hne : (u, c) ≠ (v, c) := by
        intro he
        rw [← he] at hcl
        have hdup : ([(u, c), (u, c)] : List (PyStr × Int)).Nodup :=
          List.Nodup.sublist hcl hndcl
        simp at hdup
      rcases pair_sublist_of_mem _ _ _ hne hu hv with hgood | hbad
      · exact hgood
      · exfalso
        have h1 : [(v, c), (u, c)].Sublist
            (List.insertionSort cge (wordCounterOf (commits.map CommitInfo.message))) :=
          hbad.trans hms
        have h2 := h1.filter (fun p => p.2 = c)
        rw [filter_insertionSort] at h2
        have h3 : [(v, c), (u, c)].filter (fun p => (p.2 = c : Bool)) = [(v, c), (u, c)] := by
          simp
        rw [h3] at h2
        have h4 : [(v, c), (u, c)].Sublist (wordCounterOf (commits.map CommitInfo.message)) :=
          h2.trans (List.filter_sublist _)
        exact hne (sublist_pair_antisymm _ _ _ hndcl hcl h4)
    · exact hsorted.sublist hms

/-- Commit with message "alpha beta" (witness data). -/
def cW1 : CommitInfo :=
  { hash := pys "w1", email := pys "e", date := ⟨2024, 3, 4, 10, 0, 0, some 0⟩,
    message := pys "alpha beta" }

/-- Commit with message "beta alpha" (witness data). -/
def cW2 : CommitInfo :=
  { hash := pys "w2", email := pys "e", date := ⟨2024, 3, 4, 11, 0, 0, some 0⟩,
    message := pys "beta alpha" }

/-- Witness for C6 at the spec's concrete example: for messages
`["alpha beta", "beta alpha"]` both tokens reach count 2 and "alpha" ranks
before "beta". -/
theorem C6_keyword_ranking_witness :
    [(pys "alpha", (2 : Int)), (pys "beta", 2)].Sublist
        ((analyze_commits [cW1, cW2] 2024 none ⟨2025, 1, 1⟩).commit_words)
      ∧ List.Pairwise cge ((analyze_commits [cW1, cW2] 2024 none ⟨2025, 1, 1⟩).commit_words) :=
  C6_keyword_ranking_tie_break [cW1, cW2] 2024 none ⟨2025, 1, 1⟩
    (pys "alpha") (pys "beta") 2 (by decide) (by decide) (by decide)

section CrossRepoLemmas

/-- Invariant of the global dedup loop in `analyze_repos`: the accumulated
commits have pairwise distinct hashes, all of which are recorded in
`seen_hashes`. -/
def RepoScanInv (st : RepoScanState) : Prop :=
  (st.all_commits.map CommitInfo.hash).Nodup
    ∧ ∀ x ∈ st.all_commits.map CommitInfo.hash, x ∈ st.seen_hashes

lemma analyzeReposStep_inv (diff1 diff2 : PyStr → PyStr → Bool × PyStr) (repo : PyStr)
    (st : RepoScanState) (c : CommitInfo) (h : RepoScanInv st) :
    RepoScanInv (analyzeReposStep diff1 diff2 repo st c) := by
  obtain ⟨h1, h2⟩ := h
  unfold analyzeReposStep
  by_cases hm : c.hash ∈ st.seen_hashes
  · rw [if_pos hm]
    exact ⟨h1, h2⟩
  · rw [if_neg hm]
    constructor
    · simp only [List.map_append, List.map_cons, List.map_nil]
      rw [List.nodup_append]
      refine ⟨h1, List.nodup_singleton _, ?_⟩
      intro a ha hb
      rw [List.mem_singleton] at hb
      subst hb
      exact hm (h2 _ ha)
    · intro x hx
      simp only [List.map_append, List.map_cons, List.map_nil, List.mem_append,
        List.mem_singleton] at hx
      rcases hx with hx | hx
      · exact List.mem_append_left _ (h2 _ hx)
      · subst hx
        exact List.mem_append_right _ (by simp)

lemma foldl_analyzeReposStep_inv (diff1 diff2 : PyStr → PyStr → Bool × PyStr)
    (repo : PyStr) (cs : List CommitInfo) (st : RepoScanState) (h : RepoScanInv st) :
    RepoScanInv (cs.foldl (analyzeReposStep diff1 diff2 repo) st) := by
  induction cs generalizing st with
  | nil => exact h
  | cons c cs ih => exact ih _ (analyzeReposStep_inv diff1 diff2 repo st c h)

/-- C1 (amended): the extraction-plus-aggregation pipeline deduplicates
commit hashes GLOBALLY across repositories — `analyze_repos` keeps one
`seen_hashes` set across the whole repository loop, so the output contains
at most one `CommitInfo` per distinct hash over all repositories (and a
fortiori within each repository). -/
theorem C1_global_hash_dedup (repos : List PyStr) (logRes : PyStr → Bool × PyStr)
    (diff1 diff2 : PyStr → PyStr → Bool × PyStr) (year : Nat) (emails : List PyStr) :
    ((analyzeRepos repos logRes diff1 diff2 year emails).map CommitInfo.hash).Nodup := by
  unfold analyzeRepos
  suffices h : ∀ st : RepoScanState, RepoScanInv st →
      RepoScanInv (repos.foldl
        (fun st repo =>
          (parse_git_log (logRes repo) year emails).foldl
            (analyzeReposStep diff1 diff2 repo) st) st) by
    exact (h { seen_hashes := [], all_commits := [] } ⟨List.nodup_nil, by simp⟩).1
  intro st hst
  induction repos generalizing st with
  | nil => exact hst
  | cons r rs ih =>
    exact ih _ (foldl_analyzeReposStep_inv diff1 diff2 r _ st hst)

/-- A single-record git log output with hash `a1f` (witness data). -/
def logOutC1 : PyStr :=
  pys "a1f" ++ [nulChar] ++ pys "dev@x.com" ++ [nulChar] ++
    pys "2024-03-04T10:00:00+00:00" ++ [nulChar] ++ pys "msg one" ++ [nulChar, nulChar]

/-- Counterexample to C1 as stated: two distinct repositories whose logs
each contain the commit with hash `a1f` yield only ONE `CommitInfo` in the
aggregation input set (the global `seen_hashes` in `analyze_repos` drops
the second repository's copy), and the snapshot counts it once. -/
theorem C1_counterexample_cross_repo_dedup :
    (parse_git_log (true, logOutC1) 2024 []).length = 1
      ∧ (analyzeRepos [pys "r1", pys "r2"] (fun _ => (true, logOutC1))
          (fun _ _ => (true, [])) (fun _ _ => (true, [])) 2024 []).length = 1
      ∧ (analyze_commits
          (analyzeRepos [pys "r1", pys "r2"] (fun _ => (true, logOutC1))
            (fun _ _ => (true, [])) (fun _ _ => (true, [])) 2024 [])
          2024 none ⟨2025, 1, 1⟩).total_commits = 1 :=
  ⟨by decide, by decide, by decide⟩

end CrossRepoLemmas

section StripLemmas

lemma pyDropWhile_idem (l : List Char) :
    (l.dropWhile pyIsSpace).dropWhile pyIsSpace = l.dropWhile pyIsSpace := by
  induction l with
  | nil => rfl
  | cons a l ih =>
    by_cases h : pyIsSpace a
    · rw [List.dropWhile_cons_of_pos h]
      exact ih
    · rw [List.dropWhile_cons_of_neg (by simpa using h),
        List.dropWhile_cons_of_neg (by simpa using h)]

lemma pyStripLeft_idem (s : PyStr) : pyStripLeft (pyStripLeft s) = pyStripLeft s :=
  pyDropWhile_idem s

lemma pyStripRight_idem (s : PyStr) : pyStripRight (pyStripRight s) = pyStripRight s := by
  unfold pyStripRight
  rw [List.reverse_reverse, pyDropWhile_idem]

lemma length_dropWhile_le (p : Char → Bool) (l : List Char) :
    (l.dropWhile p).length ≤ l.length := by
  induction l with
  | nil => simp
  | cons a l ih =>
    by_cases h : p a
    · rw [List.dropWhile_cons_of_pos h]
      simp only [List.length_cons]
      omega
    · rw [List.dropWhile_cons_of_neg (by simpa using h)]

lemma pyStripLeft_pyStripRight_pyStripLeft (s : PyStr) :
    pyStripLeft (pyStripRight (pyStripLeft s)) = pyStripRight (pyStripLeft s) := by
  suffices h : ∀ t : PyStr, pyStripLeft t = t →
      pyStripLeft (pyStripRight t) = pyStripRight t from
    h (pyStripLeft s) (pyStripLeft_idem s)
  intro t ht
  have hpre : List.IsPrefix (pyStripRight t) t := by
    unfold pyStripRight
    conv_rhs => rw [show t = t.reverse.reverse from (List.reverse_reverse t).symm]
    exact List.reverse_prefix.mpr (List.dropWhile_suffix pyIsSpace)
  obtain ⟨rest, hrest⟩ := hpre
  cases hsr : pyStripRight t with
  | nil => rfl
  | cons b v =>
    rw [hsr] at hrest
    have hteq : t = b :: (v ++ rest) := by
      rw [← hrest]
      simp
    have hnb : ¬ pyIsSpace b := by
      intro hp
      rw [hteq] at ht
      unfold pyStripLeft at ht
      rw [List.dropWhile_cons_of_pos hp] at ht
      have hlen := congrArg List.length ht
      have hle := length_dropWhile_le pyIsSpace (v ++ rest)
      simp only [List.length_cons] at hlen
      omega
    unfold pyStripLeft
    rw [List.dropWhile_cons_of_neg (by simpa using hnb)]

lemma pyStrip_idem (s : PyStr) : pyStrip (pyStrip s) = pyStrip s := by
  unfold pyStrip
  rw [pyStripLeft_pyStripRight_pyStripLeft, pyStripRight_idem]

end StripLemmas

lemma processLogRecord_strip (emails : List PyStr) (st : LogState) (r : PyStr)
    (h : ∀ c ∈ st.commits, pyStrip c.message = c.message) :
    ∀ c ∈ (processLogRecord emails st r).commits, pyStrip c.message = c.message := by
  intro c hc
  unfold processLogRecord at hc
  dsimp only at hc
  split at hc
  · exact h c hc
  · split at hc
    · split at hc
      · exact h c hc
      · split at hc
        · exact h c hc
        · split at hc
          · exact h c hc
          · rcases List.mem_append.mp hc with hm | hm
            · exact h c hm
            · rw [List.mem_singleton] at hm
              subst hm
              exact pyStrip_idem _
    · exact h c hc

lemma parse_git_log_strip (res : Bool × PyStr) (year : Nat) (emails : List PyStr) :
    ∀ c ∈ parse_git_log res year emails, pyStrip c.message = c.message := by
  have hfold : ∀ (records : List PyStr) (st : LogState),
      (∀ c ∈ st.commits, pyStrip c.message = c.message) →
      ∀ c ∈ (records.foldl (processLogRecord emails) st).commits,
        pyStrip c.message = c.message := by
    intro records
    induction records with
    | nil => exact fun st h => h
    | cons r rs ih =>
      intro st h
      exact ih _ (processLogRecord_strip emails st r h)
  intro c hc
  obtain ⟨success, output⟩ := res
  unfold parse_git_log at hc
  dsimp only at hc
  split at hc
  · simp at hc
  · exact hfold _ _ (by simp) c hc

/-- A single-record git log output whose raw message field is
`"  a  b\n"` (witness data). -/
def logOut4b : PyStr :=
  pys "a1f" ++ [nulChar] ++ pys "dev@x.com" ++ [nulChar] ++
    pys "2024-03-04T10:00:00+00:00" ++ [nulChar] ++ pys "  a  b\n" ++ [nulChar, nulChar]

/-- A single-record git log output whose raw message field is
`"  hello\n"` (counterexample data). -/
def logOut4 : PyStr :=
  pys "a1f" ++ [nulChar] ++ pys "dev@x.com" ++ [nulChar] ++
    pys "2024-03-04T10:00:00+00:00" ++ [nulChar] ++ pys "  hello\n" ++ [nulChar, nulChar]

/-- C4 (amended): the extractor strips ALL leading and trailing whitespace
from the commit message (`record.strip()` plus `message.strip()`), not just
one trailing newline: every extracted message is a fixed point of the
whitespace strip; internal whitespace is preserved, as the concrete record
with raw message `"  a  b\n"` (extracted as `"a  b"`, keeping the internal
double space) shows. -/
theorem C4_message_fully_stripped (res : Bool × PyStr) (year : Nat)
    (emails : List PyStr) (c : CommitInfo) (hc : c ∈ parse_git_log res year emails) :
    pyStrip c.message = c.message
      ∧ (parse_git_log (true, logOut4b) 2024 []).map CommitInfo.message = [pys "a  b"] :=
  ⟨parse_git_log_strip res year emails c hc, by decide⟩

/-- Counterexample to C4 as stated: for the well-formed record whose raw
message field is `"  hello\n"`, removing exactly one trailing newline would
leave `"  hello"`, but the extractor produces `"hello"` — the leading
whitespace is NOT preserved. -/
theorem C4_counterexample_leading_whitespace :
    (parse_git_log (true, logOut4) 2024 []).map CommitInfo.message = [pys "hello"]
      ∧ pys "hello" ≠ pys "  hello" :=
  ⟨by decide, by decide⟩

/-- The commit record extracted from `logOut4b` (witness data). -/
def recC4 : CommitInfo :=
  { hash := pys "a1f", email := pys "dev@x.com",
    date := ⟨2024, 3, 4, 10, 0, 0, some 0⟩, message := pys "a  b" }

/-- Witness for C4 (amended) at the concrete extracted record. -/
theorem C4_message_fully_stripped_witness :
    pyStrip recC4.message = recC4.message
      ∧ (parse_git_log (true, logOut4b) 2024 []).map CommitInfo.message = [pys "a  b"] :=
  C4_message_fully_stripped (true, logOut4b) 2024 [] recC4 (by decide)

/-- C8: a diff-stat line whose count fields are the binary sentinel `-` is
recorded as a `FileDiff` with zero added and deleted lines (the file still
appears in the commit's list, as the concrete `parse_git_diff` run shows);
lines with fewer than three tab-separated fields are skipped, and lines
whose non-sentinel count fields fail integer parsing are skipped. -/
theorem C8_binary_sentinel_and_malformed_lines :
    (∀ (line fn : PyStr) (rest : List PyStr),
        pySplitChar '\t' line = pys "-" :: pys "-" :: fn :: rest →
        parseDiffLine line =
          some { filename := fn, language := get_language fn,
                 added_lines := 0, deleted_lines := 0 })
      ∧ (∀ line : PyStr, (pySplitChar '\t' line).length < 3 →
          parseDiffLine line = none)
      ∧ (∀ (line a d fn : PyStr) (rest : List PyStr),
          pySplitChar '\t' line = a :: d :: fn :: rest →
          a ≠ pys "-" → pyInt a = none → parseDiffLine line = none)
      ∧ (∀ (line a d fn : PyStr) (rest : List PyStr),
          pySplitChar '\t' line = a :: d :: fn :: rest →
          d ≠ pys "-" → pyInt d = none → parseDiffLine line = none)
      ∧ (∀ r2 : Bool × PyStr,
          parse_git_diff (true, pys "-\t-\tlogo.png") r2 =
            [{ filename := pys "logo.png", language := none,
               added_lines := 0, deleted_lines := 0 }]) := by
  refine ⟨?_, ?_, ?_, ?_, ?_⟩
  · intro line fn rest hsplit
    unfold parseDiffLine
    rw [hsplit]
    simp
  · intro line hlen
    unfold parseDiffLine
    match hsplit : pySplitChar '\t' line with
    | [] => rfl
    | [_] => rfl
    | [_, _] => rfl
    | a :: d :: fn :: rest =>
      rw [hsplit] at hlen
      simp at hlen
      omega
  · intro line a d fn rest hsplit ha hpa
    unfold parseDiffLine
    rw [hsplit]
    simp only [if_neg ha, hpa]
  · intro line a d fn rest hsplit hd hpd
    unfold parseDiffLine
    rw [hsplit]
    simp only [if_neg hd, hpd]
    cases hfirst : (if a = pys "-" then some (0 : Int) else pyInt a) <;> rfl
  · intro r2
    rfl

/-- Witness for C8 at concrete diff lines: the binary sentinel line keeps
the file with zero counts; a two-field line and lines with non-numeric
counts are skipped. -/
theorem C8_binary_sentinel_witness :
    parseDiffLine (pys "-\t-\tlogo.png") =
        some { filename := pys "logo.png", language := get_language (pys "logo.png"),
               added_lines := 0, deleted_lines := 0 }
      ∧ parseDiffLine (pys "10\t2") = none
      ∧ parseDiffLine (pys "x\t2\ta.py") = none
      ∧ parseDiffLine (pys "2\tx\ta.py") = none :=
  ⟨C8_binary_sentinel_and_malformed_lines.1 (pys "-\t-\tlogo.png") (pys "logo.png") []
      (by decide),
    C8_binary_sentinel_and_malformed_lines.2.1 (pys "10\t2") (by decide),
    C8_binary_sentinel_and_malformed_lines.2.2.1 (pys "x\t2\ta.py") (pys "x") (pys "2")
      (pys "a.py") [] (by decide) (by decide) (by decide),
    C8_binary_sentinel_and_malformed_lines.2.2.2.1 (pys "2\tx\ta.py") (pys "2") (pys "x")
      (pys "a.py") [] (by decide) (by decide) (by decide)⟩
